import Mathlib

/-!
# studentHub-Dashboard: upload workflow, storage clients, statistics and size formatting

A shallow embedding of the dashboard's JavaScript modules

* `src/js/supabase.js` (namespace `SupabaseModule`): primary storage client,
* `src/js/drive.js` (namespace `DriveModule`): secondary (sharing) client,
* `src/js/main.js` (namespace `AppModule`): upload workflow and statistics,
* `src/js/ui.js` (namespace `UIModule`): the function `formatFileSize`,

followed by the theorems that settle the specification's claims.

Modelling conventions.

* The ambient world of a call (configuration constants, the answers of `fetch`,
  the clock) is an explicit `Env` value; asynchronous calls are sequenced in
  program order.
* What a call does to the outside is an explicit trace of `Event`s, in order:
  toasts, calls of module operations, HTTP requests, table rendering and the
  statistics object handed to `UIModule.updateStats`.  Console diagnostics are
  not part of the trace.
* A `try { ... } catch` block is an `Except String` computation (the body)
  followed by a handler; the carried string is the `message` of the thrown error.
* JavaScript numbers are IEEE-754 doubles.  Integer-valued numbers are carried as
  `Nat`, every arithmetic result is rounded to the nearest double (`fl`, ties to
  even, 53 significant bits).  Overflow to `Infinity` is outside the model: all
  magnitudes handled here stay far below `2 ^ 1024`.
* `Math.log` is implementation-approximated in the language: the functions that call it
  take the engine's logarithm as an argument, and the theorems ask of it an accuracy
  (`UIModule.LogAccurate`), never a value of the code under study.
* A script whose top-level statement throws leaves its module constant uninitialised; the
  one such statement in the sources reads `process.env` (`drive.js`), so the environment
  records whether the page defines `process`.
-/

namespace StudentHub

/-! ## Data model -/

/-- A browser `File` as far as the code reads it: `name`, MIME `type`, `size` in bytes. -/
structure File where
  name : String
  type : String
  size : Nat
deriving DecidableEq, Repr

/-- A listed file object.  `size` and `user` may be missing (`undefined`). -/
structure FileRecord where
  id : String
  name : String
  size : Option Nat
  user : Option String
  status : String
  createdAt : String
deriving DecidableEq, Repr

/-- The object returned by the upload operations; a property that is absent, or whose value
is `undefined` or `null`, is `none`. -/
structure UploadResult where
  success : Bool
  name : Option String := none
  size : Option Nat := none
  url : Option String := none
  fileId : Option String := none
  shareLink : Option String := none
  isMock : Option Bool := none
  error : Option String := none
deriving DecidableEq, Repr

/-- The metadata object `handleFileUpload` passes to `DriveModule.uploadToDrive`. -/
structure Metadata where
  uploadedAt : String
  supabaseUrl : Option String
deriving DecidableEq, Repr

/-- The object `updateStatistics` hands to `UIModule.updateStats`. -/
structure Stats where
  activeUsers : Nat
  totalFiles : Nat
  usedSpace : String
  storagePercent : String
  fileCount : Nat
  progressBar : Nat
deriving DecidableEq, Repr

/-! ## HTTP and environment -/

/-- An HTTP request as issued through `fetch`. -/
structure Request where
  method : String
  url : String
deriving DecidableEq, Repr

namespace DriveModule

/-- A JavaScript value that is `null`, `undefined` or a string: the `shareLink` of a
response body and the result of `generateShareLink`. -/
inductive Link where
  | null
  | undefined
  | str (s : String)
deriving DecidableEq, Repr

end DriveModule

/-- What `response.json()` yields.  `notJson`: the promise rejects with a `SyntaxError`
whose text is `message`.  `null`: the body is the JSON value `null`, so reading a property
of it throws a `TypeError`, whose text in this engine is `message`.  `object`: a JSON object
with the properties the code reads; `objects` and `fileId` are `none` when absent or falsy,
`shareLink` is the value of the property (`undefined` when absent). -/
inductive Body where
  | notJson (message : String)
  | null (message : String)
  | object (objects : Option (List FileRecord)) (fileId : Option String)
      (shareLink : DriveModule.Link)
deriving DecidableEq, Repr

/-- The outcome of one `fetch`: the promise rejects (network failure) or a response
arrives with its `ok` flag (status in the success class), `statusText` and body. -/
inductive FetchOutcome where
  | networkError (message : String)
  | response (ok : Bool) (statusText : String) (body : Body)
deriving DecidableEq, Repr

/-- The world around one call. -/
structure Env where
  /-- Configuration constant `window.SUPABASE_URL || ""`. -/
  SUPABASE_URL : String
  /-- Configuration constant `window.SUPABASE_KEY || ""`. -/
  SUPABASE_KEY : String
  /-- Whether the page defines the global `process` with its `env` object.  `drive.js` reads
  `process.env.DRIVE_API_ENDPOINT` when the script is loaded, outside any `try`: on a page
  without it that statement throws and the constant `DriveModule` is never initialised, so
  that every later use of the name throws a `ReferenceError`. -/
  hasProcess : Bool
  /-- Configuration constant `process.env.DRIVE_API_ENDPOINT || ''` of a loaded `drive.js`. -/
  DRIVE_API_ENDPOINT : String
  /-- The answer of the network to a request. -/
  fetch : Request → FetchOutcome
  /-- The successive readings of `Date.now()` (milliseconds). -/
  clock : Nat → Nat
  /-- The value of `new Date().toISOString()`. -/
  isoNow : String
  /-- The rendering `UIModule.formatFileSize` of a byte count (it goes through the
  implementation-approximated `Math.log`, so it is taken from the environment). -/
  formatFileSize : Nat → String

/-- One observable step of the application, in program order.  `uncaught`: an error leaves
the running function (its promise rejects) and the steps after it do not happen. -/
inductive Event where
  | toast (message type : String) (duration : Nat)
  | uploadPDF (file : File)
  | uploadToDrive (file : File) (metadata : Metadata)
  | listFiles
  | fetch (req : Request)
  | renderFileTable (files : List FileRecord)
  | updateStats (stats : Stats)
  | uncaught (error : String)
deriving DecidableEq, Repr

/-- The part of the page the workflow writes: the `value` of the `fileInput` control. -/
structure Dom where
  fileInputValue : String
deriving DecidableEq, Repr

/-- The event is a call of a remote operation (a module's upload or list) or an HTTP request. -/
def Event.isRemoteCall : Event → Bool
  | .uploadPDF _ => true
  | .uploadToDrive _ _ => true
  | .listFiles => true
  | .fetch _ => true
  | _ => false

/-- The event is a toast of type `error`. -/
def Event.isErrorToast : Event → Bool
  | .toast _ type _ => type == "error"
  | _ => false

/-! ## Strings -/

/-- Search of `sub` as a contiguous run of characters, at every start position. -/
def includesChars (sub : List Char) : List Char → Bool
  | [] => sub.isEmpty
  | c :: cs => sub.isPrefixOf (c :: cs) || includesChars sub cs

/-- JavaScript `s.includes(sub)`. -/
def includes (s sub : String) : Bool := includesChars sub.data s.data

/-- `fetch` as it is awaited inside a `try` block: a network failure throws. -/
def Env.fetchE (env : Env) (req : Request) : Except String (Bool × String × Body) :=
  match env.fetch req with
  | .networkError message => .error message
  | .response ok statusText body => .ok (ok, statusText, body)

/-! ## Numbers: IEEE-754 double rounding -/

/-- A non-negative finite double, held as the fraction `num / den` it denotes. -/
structure Dbl where
  num : Nat
  den : Nat
deriving DecidableEq, Repr

/-- The rational a `Dbl` denotes. -/
def Dbl.toRat (x : Dbl) : ℚ := (x.num : ℚ) / (x.den : ℚ)

/-- An integer-valued number as a `Dbl`. -/
def Dbl.ofNat (n : Nat) : Dbl := ⟨n, 1⟩

/-- Quotient `n / d` rounded to the nearest integer, ties to the even neighbour. -/
def roundHalfEven (n d : Nat) : Nat :=
  let q := n / d
  let r := n % d
  if 2 * r < d then q
  else if d < 2 * r then q + 1
  else if q % 2 = 0 then q else q + 1

/-- Worker of `ilog2`: structural in the fuel. -/
def ilog2Aux : Nat → Nat → Nat
  | 0, _ => 0
  | fuel + 1, n => if n < 2 then 0 else ilog2Aux fuel (n / 2) + 1

/-- Position of the leading bit: `2 ^ ilog2 n ≤ n < 2 ^ (ilog2 n + 1)` for `0 < n`. -/
def ilog2 (n : Nat) : Nat := ilog2Aux n n

/-- The exponent `e` of the double nearest to `p / q`: the one with
`2 ^ 52 ≤ (p / q) / 2 ^ e < 2 ^ 53`, and not below `-1074` (subnormal range). -/
def flExp (p q : Nat) : Int :=
  let e0 : Int := (ilog2 p : Int) - (ilog2 q : Int) - 52
  let e : Int := if 2 ^ 52 * (q * 2 ^ e0.toNat) ≤ p * 2 ^ (-e0).toNat then e0 else e0 - 1
  max e (-1074)

/-- Rounding of the exact value `p / q` to the nearest double, ties to even: the
significand `(p / q) / 2 ^ e` is rounded to an integer. -/
def fl (p q : Nat) : Dbl :=
  if p = 0 then ⟨0, 1⟩
  else
    let e := flExp p q
    ⟨roundHalfEven (p * 2 ^ (-e).toNat) (q * 2 ^ e.toNat) * 2 ^ e.toNat, 2 ^ (-e).toNat⟩

/-- JavaScript `a / b` (for `b` non-zero). -/
def jsDiv (a b : Dbl) : Dbl := fl (a.num * b.den) (a.den * b.num)

/-- JavaScript `a * b`. -/
def jsMul (a b : Dbl) : Dbl := fl (a.num * b.num) (a.den * b.den)

/-- The double nearest to the integer `n` (it is an integer again). -/
def toDouble (n : Nat) : Nat := (fl n 1).num / (fl n 1).den

/-- JavaScript `a + b` on integer-valued numbers. -/
def jsAdd (a b : Nat) : Nat := toDouble (a + b)

/-- JavaScript `Math.round`: the integer `floor (x + 1/2)`, ties towards `+∞`. -/
def mathRound (x : Dbl) : Nat := (2 * x.num + x.den) / (2 * x.den)

/-! ## `SupabaseModule` (src/js/supabase.js) -/

namespace SupabaseModule

/-- Constant `BUCKET_NAME`. -/
def BUCKET_NAME : String := "admin-files"

/-- The guard `!SUPABASE_URL || !SUPABASE_KEY`: an empty string is falsy. -/
def unconfigured (env : Env) : Bool := env.SUPABASE_URL == "" || env.SUPABASE_KEY == ""

/-- Function `mockUploadPDF`: the object resolved after the simulated latency. -/
def mockUploadPDF (file : File) : UploadResult :=
  { success := true
    name := some file.name
    size := some file.size
    url := some ("mock://files/" ++ file.name)
    isMock := some true }

/-- The request of `uploadPDF`. -/
def uploadRequest (env : Env) (file : File) : Request :=
  ⟨"POST", env.SUPABASE_URL ++ "/storage/v1/object/" ++ BUCKET_NAME ++ "/" ++ file.name⟩

/-- The `try` block of `uploadPDF`. -/
def uploadPDFTry (env : Env) (file : File) : List Event × Except String UploadResult :=
  if unconfigured env then ([], .ok (mockUploadPDF file))
  else
    ([.fetch (uploadRequest env file)],
      match env.fetchE (uploadRequest env file) with
      | .error message => .error message
      | .ok (ok, statusText, _) =>
        if !ok then .error ("Upload failed: " ++ statusText)
        else .ok
          { success := true
            name := some file.name
            size := some file.size
            url := some (env.SUPABASE_URL ++ "/storage/v1/object/public/" ++ BUCKET_NAME
              ++ "/" ++ file.name) })

/-- Function `uploadPDF`: the `try` block, and the `catch` turning a thrown error into
`{ success: false, error: error.message }`. -/
def uploadPDF (env : Env) (file : File) : List Event × UploadResult :=
  ((uploadPDFTry env file).1,
    match (uploadPDFTry env file).2 with
    | .ok result => result
    | .error message => { success := false, error := some message })

/-- Function `getMockFileList`. -/
def getMockFileList : List FileRecord :=
  [ { id := "1", name := "intro-to-js.pdf", size := some (1024 * 1200), user := some "يوسف",
      status := "published", createdAt := "2025-11-10" },
    { id := "2", name := "lecture3.mp4", size := some (1024 * 1024 * 28), user := some "مريم",
      status := "pending", createdAt := "2025-11-09" },
    { id := "3", name := "python-basics.pdf", size := some (1024 * 2400), user := some "أحمد",
      status := "published", createdAt := "2025-11-08" } ]

/-- The request of `listFiles`. -/
def listRequest (env : Env) : Request :=
  ⟨"GET", env.SUPABASE_URL ++ "/storage/v1/object/list/" ++ BUCKET_NAME⟩

/-- The statements `const data = await response.json(); return data.objects || [];`:
a body that is not JSON rejects, a `null` body throws on the property access. -/
def readObjects : Body → Except String (List FileRecord)
  | .notJson message => .error message
  | .null message => .error message
  | .object objects _ _ => .ok (objects.getD [])

/-- The `try` block of `listFiles`. -/
def listFilesTry (env : Env) : List Event × Except String (List FileRecord) :=
  if unconfigured env then ([], .ok getMockFileList)
  else
    ([.fetch (listRequest env)],
      match env.fetchE (listRequest env) with
      | .error message => .error message
      | .ok (ok, _, body) =>
        if !ok then .error "Failed to list files" else readObjects body)

/-- Function `listFiles`: the `try` block, and the `catch` returning the mock list. -/
def listFiles (env : Env) : List Event × List FileRecord :=
  ((listFilesTry env).1,
    match (listFilesTry env).2 with
    | .ok files => files
    | .error _ => getMockFileList)

/-- The request of `deleteFile`. -/
def deleteRequest (env : Env) (fileName : String) : Request :=
  ⟨"DELETE", env.SUPABASE_URL ++ "/storage/v1/object/" ++ BUCKET_NAME ++ "/" ++ fileName⟩

/-- The `try` block of `deleteFile`. -/
def deleteFileTry (env : Env) (fileName : String) : List Event × Except String Bool :=
  if unconfigured env then ([], .ok true)
  else
    ([.fetch (deleteRequest env fileName)],
      match env.fetchE (deleteRequest env fileName) with
      | .error message => .error message
      | .ok (ok, _, _) => .ok ok)

/-- Function `deleteFile`: the `try` block, and the `catch` returning `false`. -/
def deleteFile (env : Env) (fileName : String) : List Event × Bool :=
  ((deleteFileTry env fileName).1,
    match (deleteFileTry env fileName).2 with
    | .ok b => b
    | .error _ => false)

end SupabaseModule

/-! ## `DriveModule` (src/js/drive.js)

The functions of the module once `drive.js` has loaded, that is on a page that defines
`process` (`Env.hasProcess`); whether the module exists at all is checked where it is used,
in `AppModule.handleFileUpload`. -/

namespace DriveModule

/-- The guard `!DRIVE_API_ENDPOINT`. -/
def unconfigured (env : Env) : Bool := env.DRIVE_API_ENDPOINT == ""

/-- Function `mockUploadToDrive`: the object resolved after the simulated latency;
`Date.now()` is read twice. -/
def mockUploadToDrive (env : Env) (_file : File) (_metadata : Metadata) : UploadResult :=
  { success := true
    fileId := some ("mock_" ++ toString (env.clock 0))
    shareLink := some ("https://drive.google.com/file/d/mock_" ++ toString (env.clock 1) ++ "/view")
    isMock := some true }

/-- The request of `uploadToDrive`. -/
def uploadRequest (env : Env) : Request := ⟨"POST", env.DRIVE_API_ENDPOINT ++ "/upload"⟩

/-- The statements `const result = await response.json(); return { success: true,
fileId: result.fileId, shareLink: result.shareLink };`. -/
def readUpload : Body → Except String UploadResult
  | .notJson message => .error message
  | .null message => .error message
  | .object _ fileId (.str link) => .ok { success := true, fileId := fileId, shareLink := some link }
  | .object _ fileId _ => .ok { success := true, fileId := fileId, shareLink := none }

/-- The `try` block of `uploadToDrive`. -/
def uploadToDriveTry (env : Env) (file : File) (metadata : Metadata) :
    List Event × Except String UploadResult :=
  if unconfigured env then ([], .ok (mockUploadToDrive env file metadata))
  else
    ([.fetch (uploadRequest env)],
      match env.fetchE (uploadRequest env) with
      | .error message => .error message
      | .ok (ok, statusText, body) =>
        if !ok then .error ("Drive upload failed: " ++ statusText) else readUpload body)

/-- Function `uploadToDrive`: the `try` block, and the `catch` turning a thrown error into
`{ success: false, error: error.message }`. -/
def uploadToDrive (env : Env) (file : File) (metadata : Metadata) : List Event × UploadResult :=
  ((uploadToDriveTry env file metadata).1,
    match (uploadToDriveTry env file metadata).2 with
    | .ok result => result
    | .error message => { success := false, error := some message })

/-- The request of `generateShareLink`. -/
def shareRequest (env : Env) (fileId : String) : Request :=
  ⟨"POST", env.DRIVE_API_ENDPOINT ++ "/share/" ++ fileId⟩

/-- The statements `const data = await response.json(); return data.shareLink;`. -/
def readShareLink : Body → Except String Link
  | .notJson message => .error message
  | .null message => .error message
  | .object _ _ link => .ok link

/-- The `try` block of `generateShareLink`. -/
def generateShareLinkTry (env : Env) (fileId : String) : List Event × Except String Link :=
  if unconfigured env then ([], .ok (.str ("https://drive.google.com/file/d/" ++ fileId ++ "/view")))
  else
    ([.fetch (shareRequest env fileId)],
      match env.fetchE (shareRequest env fileId) with
      | .error message => .error message
      | .ok (ok, _, body) =>
        if !ok then .error "Failed to generate share link" else readShareLink body)

/-- Function `generateShareLink`: the `try` block, and the `catch` returning `null`. -/
def generateShareLink (env : Env) (fileId : String) : List Event × Link :=
  ((generateShareLinkTry env fileId).1,
    match (generateShareLinkTry env fileId).2 with
    | .ok link => link
    | .error _ => .null)

/-- The request of `deleteFromDrive`. -/
def deleteRequest (env : Env) (fileId : String) : Request :=
  ⟨"DELETE", env.DRIVE_API_ENDPOINT ++ "/delete/" ++ fileId⟩

/-- The `try` block of `deleteFromDrive`. -/
def deleteFromDriveTry (env : Env) (fileId : String) : List Event × Except String Bool :=
  if unconfigured env then ([], .ok true)
  else
    ([.fetch (deleteRequest env fileId)],
      match env.fetchE (deleteRequest env fileId) with
      | .error message => .error message
      | .ok (ok, _, _) => .ok ok)

/-- Function `deleteFromDrive`: the `try` block, and the `catch` returning `false`. -/
def deleteFromDrive (env : Env) (fileId : String) : List Event × Bool :=
  ((deleteFromDriveTry env fileId).1,
    match (deleteFromDriveTry env fileId).2 with
    | .ok b => b
    | .error _ => false)

end DriveModule

/-! ## `AppModule` (src/js/main.js) -/

namespace AppModule

/-- Call `UIModule.showToast(message, type)` with the default duration of 3000 ms. -/
def showToast (message type : String) : Event := .toast message type 3000

/-- Local `maxSize` of `updateStatistics`: 10 GiB. -/
def maxSize : Nat := 10 * 1024 * 1024 * 1024

/-- Local `totalSize` of `updateStatistics`:
`files.reduce((sum, f) => sum + (f.size || 0), 0)`. -/
def totalSize (files : List FileRecord) : Nat :=
  files.foldl (fun sum f => jsAdd sum (f.size.getD 0)) 0

/-- Local `percentage` of `updateStatistics`:
`Math.round((totalSize / maxSize) * 100)`, as a function of the total. -/
def percentageOf (total : Nat) : Nat :=
  mathRound (jsMul (jsDiv (Dbl.ofNat total) (Dbl.ofNat maxSize)) (Dbl.ofNat 100))

/-- Function `updateStatistics`: the object it passes to `UIModule.updateStats`. -/
def updateStatistics (env : Env) (files : List FileRecord) : Stats :=
  { activeUsers := 1254
    totalFiles := files.length
    usedSpace := env.formatFileSize (totalSize files)
    storagePercent := toString (percentageOf (totalSize files)) ++ "% من 10GB"
    fileCount := files.length
    progressBar := percentageOf (totalSize files) }

/-- Function `loadDashboard`: list, render the table, update the statistics. -/
def loadDashboard (env : Env) : List Event :=
  [Event.listFiles] ++ (SupabaseModule.listFiles env).1
    ++ [.renderFileTable (SupabaseModule.listFiles env).2,
        .updateStats (updateStatistics env (SupabaseModule.listFiles env).2)]

/-- The size limit `200 * 1024 * 1024` of `handleFileUpload`. -/
def maxUploadSize : Nat := 200 * 1024 * 1024

/-- The metadata object built by `handleFileUpload` for the secondary upload. -/
def driveMetadata (env : Env) (supabaseResult : UploadResult) : Metadata :=
  { uploadedAt := env.isoNow, supabaseUrl := supabaseResult.url }

/-- Function `handleFileUpload`: the page after the call and the trace of the call.  The
expression `DriveModule.uploadToDrive` of line 112 throws a `ReferenceError` when `drive.js`
did not load (`Env.hasProcess` false); the function has no `try`, so the call ends there. -/
def handleFileUpload (env : Env) (file : File) (dom : Dom) : Dom × List Event :=
  if !(includes file.type "pdf") then
    (dom, [showToast "نوع الملف غير مدعوم. يرجى تحميل ملف PDF" "error"])
  else if file.size > maxUploadSize then
    (dom, [showToast "حجم الملف يتجاوز الحد الأقصى (200MB)" "error"])
  else
    let start : List Event := [.toast "جاري تحميل الملف..." "success" 5000, .uploadPDF file]
    let supabase := SupabaseModule.uploadPDF env file
    if !supabase.2.success then
      (dom, start ++ supabase.1 ++ [showToast "فشل تحميل الملف إلى السحابة" "error"])
    else if !env.hasProcess then
      (dom, start ++ supabase.1 ++ [.uncaught "ReferenceError"])
    else
      let metadata := driveMetadata env supabase.2
      let drive := DriveModule.uploadToDrive env file metadata
      ({ dom with fileInputValue := "" },
        start ++ supabase.1 ++ [.uploadToDrive file metadata] ++ drive.1
          ++ [showToast "تم رفع الملف بنجاح" "success"] ++ loadDashboard env)

end AppModule

/-! ## `UIModule` (src/js/ui.js)

`formatFileSize` goes through `Math.log`, which the language leaves to the engine
("implementation-approximated").  The engine's logarithm on the integers is therefore an
argument `mathLog` of the model; everything around it is the code's own arithmetic. -/

namespace UIModule

/-- Local `sizes` of `formatFileSize`: the unit table. -/
def sizes : List String := ["B", "KB", "MB", "GB"]

/-- JavaScript `Math.floor` on a non-negative number. -/
def mathFloor (x : Dbl) : Nat := x.num / x.den

/-- Local `i` of `formatFileSize`: `Math.floor(Math.log(bytes) / Math.log(k))` with
`k = 1024`; the division is a double division. -/
def unitIndex (mathLog : Nat → Dbl) (bytes : Nat) : Nat :=
  mathFloor (jsDiv (mathLog bytes) (mathLog 1024))

/-- The integer `Math.round(bytes / Math.pow(k, i) * 10)` of `formatFileSize`;
`Math.pow(1024, i)` is the power of two `1024 ^ i`. -/
def tenths (bytes i : Nat) : Nat :=
  mathRound (jsMul (jsDiv (Dbl.ofNat bytes) (Dbl.ofNat (1024 ^ i))) (Dbl.ofNat 10))

/-- The text of `n / 10` in a string concatenation: the double nearest to `n / 10` prints as
that decimal, with one fractional digit unless it is zero. -/
def showTenths (n : Nat) : String :=
  toString (n / 10) ++ (if n % 10 = 0 then "" else "." ++ toString (n % 10))

/-- Function `formatFileSize`.  `!bytes` holds for 0 (and for a missing size, which callers
pass as no number at all); `sizes[i]` beyond the table is `undefined`, which a string
concatenation spells out. -/
def formatFileSize (mathLog : Nat → Dbl) (bytes : Nat) : String :=
  if bytes = 0 then "0 B"
  else
    showTenths (tenths bytes (unitIndex mathLog bytes)) ++ " "
      ++ (sizes[unitIndex mathLog bytes]?).getD "undefined"

/-- What is asked of the engine's `Math.log` at the integer `x`: its value, a fraction with
a positive denominator of at most `2 ^ 256` (the denominator of a double next to a logarithm
is at most `2 ^ 53`), lies within the relative distance `2 ^ (-48)` of the natural logarithm
of `x`.  A value within sixteen units in the last place of the logarithm does. -/
def LogAccurate (mathLog : Nat → Dbl) (x : Nat) : Prop :=
  0 < (mathLog x).den ∧ (mathLog x).den ≤ 2 ^ 256 ∧
  |(((mathLog x).toRat : ℚ) : ℝ) - Real.log (x : ℝ)| ≤ Real.log (x : ℝ) / 2 ^ 48

end UIModule

/-! ## Specification-side definition -/

/-- Follows the spec's words, not the code: `total * 100 / maxSize` rounded to the nearest
integer with halves rounded up, that is the floor of the exact quotient plus one half,
`floor ((2 * total * 100 + maxSize) / (2 * maxSize))`. -/
def halfUpPercent (total : Nat) : Nat :=
  (2 * (total * 100) + AppModule.maxSize) / (2 * AppModule.maxSize)

/-! ## Concrete inputs used by the checks below -/

/-- Nothing is configured: both clients are in mock mode (the page defines `process`,
without an endpoint in it). -/
def mockEnv : Env :=
  { SUPABASE_URL := ""
    SUPABASE_KEY := ""
    hasProcess := true
    DRIVE_API_ENDPOINT := ""
    fetch := fun _ => .networkError "Failed to fetch"
    clock := fun k => 1762300800000 + k
    isoNow := "2025-11-05T00:00:00.000Z"
    formatFileSize := fun n => toString n ++ " B" }

/-- Both clients are configured and every request fails on the network. -/
def offlineEnv : Env :=
  { mockEnv with
    SUPABASE_URL := "https://project.supabase.co"
    SUPABASE_KEY := "anon-key"
    DRIVE_API_ENDPOINT := "https://drive.example.org/api" }

/-- The primary client is in mock mode, the secondary one is configured and unreachable. -/
def driveDownEnv : Env :=
  { mockEnv with DRIVE_API_ENDPOINT := "https://drive.example.org/api" }

/-- A plain page: nothing is configured and there is no global `process`. -/
def plainPageEnv : Env := { mockEnv with hasProcess := false }

/-- A PDF of exactly the largest accepted size. -/
def pdfFile : File := ⟨"report.pdf", "application/pdf", 209715200⟩

/-- A PDF one byte above the limit. -/
def bigPdfFile : File := ⟨"scan.pdf", "application/pdf", 209715201⟩

/-- A file that is not a PDF. -/
def textFile : File := ⟨"notes.txt", "text/plain", 10⟩

/-- The page after the user picked `report.pdf` through the file input. -/
def pickedPdfDom : Dom := ⟨"C:\\fakepath\\report.pdf"⟩

/-- The page after the user picked `notes.txt` through the file input. -/
def pickedDom : Dom := ⟨"C:\\fakepath\\notes.txt"⟩

/-- The list of the specification's example: sizes `1200 * 1024`, `undefined`, `2400 * 1024`. -/
def specFiles : List FileRecord :=
  [ ⟨"1", "intro-to-js.pdf", some (1200 * 1024), none, "published", "2025-11-10"⟩,
    ⟨"2", "untitled.pdf", none, none, "pending", "2025-11-09"⟩,
    ⟨"3", "python-basics.pdf", some (2400 * 1024), none, "published", "2025-11-08"⟩ ]

/-- Two recordings of 3 GiB and 2.75 GiB: 6,174,015,488 bytes, 57.5 % of 10 GiB. -/
def videoFiles : List FileRecord :=
  [ ⟨"1", "lecture1.mp4", some 3221225472, none, "published", "2025-11-10"⟩,
    ⟨"2", "lecture2.mp4", some 2952790016, none, "published", "2025-11-09"⟩ ]

/-- Two files of 512 MiB: 1 GiB in total. -/
def gibFiles : List FileRecord :=
  [ ⟨"1", "part1.pdf", some 536870912, none, "published", "2025-11-10"⟩,
    ⟨"2", "part2.pdf", some 536870912, none, "published", "2025-11-09"⟩ ]

/-- Two records whose sizes, 9,007,199,254,740,992 (`2 ^ 53`) and 1, add up to an integer
that is not a JavaScript number. -/
def hugeFiles : List FileRecord :=
  [ ⟨"1", "archive.pdf", some 9007199254740992, none, "published", "2025-11-10"⟩,
    ⟨"2", "note.pdf", some 1, none, "published", "2025-11-09"⟩ ]

/-- The doubles nearest to the natural logarithms of the sample sizes 1, 1023, 1024, 1280,
1536, 2048, `1024 ^ 2 - 1`, `1024 ^ 2`, `1024 ^ 3 - 1`, `1024 ^ 3`, `1024 ^ 4 - 1`, `1024 ^ 4`
and `2 * 1024 ^ 4`, in units of `2 ^ (-50)`. -/
def sampleLogs : List (Nat × Nat) :=
  [ (1, 0),
    (1023, 7803043411358229),
    (1024, 7804143460206699),
    (1280, 8055380763843900),
    (1536, 8260656587653616),
    (2048, 8584557806227369),
    (1048575, 15608285846671062),
    (1048576, 15608286920413398),
    (1073741823, 23412430379571520),
    (1073741824, 23412430380620096),
    (1099511627775, 31216573840825772),
    (1099511627776, 31216573840826796),
    (2199023255552, 31996988186847464) ]

/-- A logarithm for the checks: correctly rounded at the sample sizes (and 0 elsewhere). -/
def sampleLog (x : Nat) : Dbl := ⟨(sampleLogs.lookup x).getD 0, 2 ^ 50⟩

/-- A logarithm that differs from `sampleLog` at 1024 only, and there by one unit in the
last place: 6.931471805599454 where `sampleLog` has 6.931471805599453. -/
def skewLog (x : Nat) : Dbl := if x = 1024 then ⟨7804143460206700, 2 ^ 50⟩ else sampleLog x

/-! ## Helper lemmas -/

theorem isPrefixOf_iff_append (sub s : List Char) :
    sub.isPrefixOf s = true ↔ ∃ b, s = sub ++ b := by
  induction sub generalizing s with
  | nil => simp
  | cons x xs ih =>
    cases s with
    | nil => simp [List.isPrefixOf]
    | cons y ys =>
      simp only [List.isPrefixOf, Bool.and_eq_true, beq_iff_eq, ih, List.cons_append,
        List.cons.injEq]
      constructor
      · rintro ⟨rfl, b, rfl⟩
        exact ⟨b, rfl, rfl⟩
      · rintro ⟨b, rfl, rfl⟩
        exact ⟨rfl, b, rfl⟩

/-- The search `includesChars` finds `sub` exactly when `s` is `a ++ sub ++ b`. -/
theorem includesChars_iff (sub s : List Char) :
    includesChars sub s = true ↔ ∃ a b, s = a ++ sub ++ b := by
  induction s with
  | nil =>
    simp only [includesChars, List.isEmpty_iff]
    constructor
    · rintro rfl
      exact ⟨[], [], rfl⟩
    · rintro ⟨a, b, h⟩
      have h2 := congrArg List.length h
      simp only [List.length_nil, List.length_append] at h2
      exact List.length_eq_zero.mp (by omega)
  | cons c cs ih =>
    simp only [includesChars, Bool.or_eq_true, isPrefixOf_iff_append, ih]
    constructor
    · rintro (⟨b, h⟩ | ⟨a, b, h⟩)
      · exact ⟨[], b, by simpa using h⟩
      · exact ⟨c :: a, b, by simp [h]⟩
    · rintro ⟨a, b, h⟩
      cases a with
      | nil => exact Or.inl ⟨b, by simpa using h⟩
      | cons x xs =>
        simp only [List.cons_append, List.cons.injEq] at h
        exact Or.inr ⟨xs, b, h.2⟩

/-- The guard `file.type.includes('pdf')` holds exactly when the type contains `pdf`. -/
theorem includes_pdf_iff (file : File) :
    includes file.type "pdf" = true ↔ ∃ a b, file.type.data = a ++ "pdf".data ++ b :=
  includesChars_iff _ _

/-- The primary client issues HTTP requests only. -/
theorem uploadPDF_events (env : Env) (file : File) :
    ∀ ev ∈ (SupabaseModule.uploadPDF env file).1, ev = .fetch (SupabaseModule.uploadRequest env file) := by
  intro ev hev
  simp only [SupabaseModule.uploadPDF, SupabaseModule.uploadPDFTry] at hev
  split at hev <;> simp_all

/-! ### Rounding -/

theorem ilog2Aux_spec (fuel : Nat) : ∀ n, 1 ≤ n → n ≤ fuel →
    2 ^ ilog2Aux fuel n ≤ n ∧ n < 2 ^ (ilog2Aux fuel n + 1) := by
  induction fuel with
  | zero => intro n h1 h2; omega
  | succ fuel ih =>
    intro n h1 h2
    unfold ilog2Aux
    split
    · simp; omega
    · have h := ih (n / 2) (by omega) (by omega)
      rw [pow_succ, pow_succ]
      constructor <;> omega

theorem ilog2_spec (n : Nat) (h : 1 ≤ n) : 2 ^ ilog2 n ≤ n ∧ n < 2 ^ (ilog2 n + 1) :=
  ilog2Aux_spec n n h le_rfl

theorem ilog2_lt_of_lt_pow (n k : Nat) (h : 1 ≤ n) (hk : n < 2 ^ k) : ilog2 n < k := by
  by_contra hc
  have h1 := (ilog2_spec n h).1
  have h2 : 2 ^ k ≤ 2 ^ ilog2 n := Nat.pow_le_pow_right (by norm_num) (by omega)
  omega

theorem roundHalfEven_bounds (n d : Nat) (hd : 0 < d) :
    2 * (d * roundHalfEven n d) ≤ 2 * n + d ∧ 2 * n ≤ 2 * (d * roundHalfEven n d) + d := by
  have h1 := Nat.div_add_mod n d
  have h2 := Nat.mod_lt n hd
  unfold roundHalfEven
  simp only
  generalize n / d = q at *
  generalize n % d = r at *
  split
  · constructor <;> omega
  · split
    · rw [Nat.mul_add]; constructor <;> omega
    · split
      · constructor <;> omega
      · rw [Nat.mul_add]; constructor <;> omega

theorem roundHalfEven_one (n : Nat) : roundHalfEven n 1 = n := by
  simp [roundHalfEven, Nat.mod_one]

theorem ilog2_one : ilog2 1 = 0 := by decide

theorem flExp_ge (p q : Nat) : -(ilog2 q : Int) - 53 ≤ flExp p q := by
  unfold flExp
  simp only
  split <;> omega

theorem flExp_ge_clamp (p q : Nat) : -1074 ≤ flExp p q := by
  unfold flExp
  simp only
  omega

theorem flExp_le (p q : Nat) (h : ilog2 p ≤ ilog2 q + 52) : flExp p q ≤ 0 := by
  unfold flExp
  simp only
  split <;> omega

/-- Integers below `2 ^ 53` are doubles: rounding leaves them unchanged. -/
theorem toDouble_eq (n : Nat) (h : n < 2 ^ 53) : toDouble n = n := by
  unfold toDouble fl
  by_cases hn : n = 0
  · simp [hn]
  · have hlog : ilog2 n < 53 := ilog2_lt_of_lt_pow n 53 (by omega) h
    have he : flExp n 1 ≤ 0 := flExp_le n 1 (by rw [ilog2_one]; omega)
    have he0 : (flExp n 1).toNat = 0 := by omega
    simp only [hn, if_false, he0, pow_zero, mul_one, roundHalfEven_one]
    exact Nat.mul_div_cancel _ (by positivity)

/-- The significand window: with `e = flExp p q` the scaled quotient is at least `2 ^ 52`. -/
theorem flExp_window (p q : Nat) (hp : 1 ≤ p) (hq : 1 ≤ q) (hb : ilog2 q ≤ 1021) :
    2 ^ 52 * (q * 2 ^ (flExp p q).toNat) ≤ p * 2 ^ (-(flExp p q)).toNat := by
  have hP := ilog2_spec p hp
  have hQ := ilog2_spec q hq
  unfold flExp
  simp only
  split
  · rename_i hc
    rw [max_eq_left (by omega)]
    exact hc
  · rw [max_eq_left (by omega)]
    rcases le_or_lt (ilog2 q + 53) (ilog2 p) with hle | hlt
    · obtain ⟨k, hk⟩ : ∃ k, ilog2 p = ilog2 q + 53 + k := ⟨ilog2 p - (ilog2 q + 53), by omega⟩
      have e1 : ((ilog2 p : Int) - (ilog2 q : Int) - 52 - 1).toNat = k := by omega
      have e2 : (-((ilog2 p : Int) - (ilog2 q : Int) - 52 - 1)).toNat = 0 := by omega
      rw [e1, e2, pow_zero, mul_one]
      have h1 : 2 ^ ilog2 p = 2 ^ 52 * (2 ^ (ilog2 q + 1) * 2 ^ k) := by
        rw [hk, ← pow_add, ← pow_add]; congr 1; omega
      have h2 : q * 2 ^ k ≤ 2 ^ (ilog2 q + 1) * 2 ^ k :=
        Nat.mul_le_mul_right _ hQ.2.le
      calc 2 ^ 52 * (q * 2 ^ k) ≤ 2 ^ 52 * (2 ^ (ilog2 q + 1) * 2 ^ k) :=
            Nat.mul_le_mul_left _ h2
        _ = 2 ^ ilog2 p := h1.symm
        _ ≤ p := hP.1
    · obtain ⟨j, hj⟩ : ∃ j, ilog2 q + 53 = ilog2 p + j := ⟨ilog2 q + 53 - ilog2 p, by omega⟩
      have e1 : ((ilog2 p : Int) - (ilog2 q : Int) - 52 - 1).toNat = 0 := by omega
      have e2 : (-((ilog2 p : Int) - (ilog2 q : Int) - 52 - 1)).toNat = j := by omega
      rw [e1, e2, pow_zero, mul_one]
      have h1 : 2 ^ 52 * 2 ^ (ilog2 q + 1) = 2 ^ ilog2 p * 2 ^ j := by
        rw [← pow_add, ← pow_add]; congr 1; omega
      calc 2 ^ 52 * q ≤ 2 ^ 52 * 2 ^ (ilog2 q + 1) := Nat.mul_le_mul_left _ hQ.2.le
        _ = 2 ^ ilog2 p * 2 ^ j := h1
        _ ≤ p * 2 ^ j := Nat.mul_le_mul_right _ hP.1

/-- The significand window, upper side: with `e = flExp p q` the scaled quotient is below
`2 ^ 53`, so the rounded significand has at most 53 bits (or is `2 ^ 53` itself). -/
theorem flExp_window_upper (p q : Nat) (hp : 1 ≤ p) (hq : 1 ≤ q) (hb : ilog2 q ≤ 1021) :
    p * 2 ^ (-(flExp p q)).toNat < 2 ^ 53 * (q * 2 ^ (flExp p q).toNat) := by
  have hP := ilog2_spec p hp
  have hQ := ilog2_spec q hq
  unfold flExp
  simp only
  split
  · rw [max_eq_left (by omega)]
    rcases le_or_lt (ilog2 q + 52) (ilog2 p) with hle | hlt
    · obtain ⟨k, hk⟩ : ∃ k, ilog2 p = ilog2 q + 52 + k := ⟨ilog2 p - (ilog2 q + 52), by omega⟩
      have e1 : ((ilog2 p : Int) - (ilog2 q : Int) - 52).toNat = k := by omega
      have e2 : (-((ilog2 p : Int) - (ilog2 q : Int) - 52)).toNat = 0 := by omega
      rw [e1, e2, pow_zero, mul_one]
      have h1 : 2 ^ (ilog2 p + 1) = 2 ^ 53 * (2 ^ ilog2 q * 2 ^ k) := by
        rw [hk, ← pow_add, ← pow_add]; congr 1; omega
      calc p < 2 ^ (ilog2 p + 1) := hP.2
        _ = 2 ^ 53 * (2 ^ ilog2 q * 2 ^ k) := h1
        _ ≤ 2 ^ 53 * (q * 2 ^ k) :=
            Nat.mul_le_mul_left _ (Nat.mul_le_mul_right _ hQ.1)
    · obtain ⟨j, hj⟩ : ∃ j, ilog2 q + 52 = ilog2 p + j := ⟨ilog2 q + 52 - ilog2 p, by omega⟩
      have e1 : ((ilog2 p : Int) - (ilog2 q : Int) - 52).toNat = 0 := by omega
      have e2 : (-((ilog2 p : Int) - (ilog2 q : Int) - 52)).toNat = j := by omega
      rw [e1, e2, pow_zero, mul_one]
      have h1 : 2 ^ (ilog2 p + 1) * 2 ^ j = 2 ^ 53 * 2 ^ ilog2 q := by
        rw [← pow_add, ← pow_add]; congr 1; omega
      calc p * 2 ^ j < 2 ^ (ilog2 p + 1) * 2 ^ j :=
            Nat.mul_lt_mul_of_pos_right hP.2 (by positivity)
        _ = 2 ^ 53 * 2 ^ ilog2 q := h1
        _ ≤ 2 ^ 53 * q := Nat.mul_le_mul_left _ hQ.1
  · rename_i hc
    rw [max_eq_left (by omega)]
    have hc2 := Nat.lt_of_not_le hc
    rcases le_or_lt (ilog2 q + 53) (ilog2 p) with hle | hlt
    · obtain ⟨k, hk⟩ : ∃ k, ilog2 p = ilog2 q + 53 + k := ⟨ilog2 p - (ilog2 q + 53), by omega⟩
      have e1 : ((ilog2 p : Int) - (ilog2 q : Int) - 52 - 1).toNat = k := by omega
      have e2 : (-((ilog2 p : Int) - (ilog2 q : Int) - 52 - 1)).toNat = 0 := by omega
      have e3 : ((ilog2 p : Int) - (ilog2 q : Int) - 52).toNat = k + 1 := by omega
      have e4 : (-((ilog2 p : Int) - (ilog2 q : Int) - 52)).toNat = 0 := by omega
      rw [e3, e4, pow_zero, mul_one, pow_succ] at hc2
      rw [e1, e2, pow_zero, mul_one]
      calc p < 2 ^ 52 * (q * (2 ^ k * 2)) := hc2
        _ = 2 ^ 53 * (q * 2 ^ k) := by ring
    · obtain ⟨j, hj⟩ : ∃ j, ilog2 q + 52 = ilog2 p + j := ⟨ilog2 q + 52 - ilog2 p, by omega⟩
      have e1 : ((ilog2 p : Int) - (ilog2 q : Int) - 52 - 1).toNat = 0 := by omega
      have e2 : (-((ilog2 p : Int) - (ilog2 q : Int) - 52 - 1)).toNat = j + 1 := by omega
      have e3 : ((ilog2 p : Int) - (ilog2 q : Int) - 52).toNat = 0 := by omega
      have e4 : (-((ilog2 p : Int) - (ilog2 q : Int) - 52)).toNat = j := by omega
      rw [e3, e4, pow_zero, mul_one] at hc2
      rw [e1, e2, pow_zero, mul_one, pow_succ]
      calc p * (2 ^ j * 2) = (p * 2 ^ j) * 2 := by ring
        _ < (2 ^ 52 * q) * 2 := Nat.mul_lt_mul_of_pos_right hc2 (by norm_num)
        _ = 2 ^ 53 * q := by ring

/-- The model against known doubles: `1 / 10` is `0x1.999999999999ap-4`, the quotient
`6174015488 / maxSize` is `0x1.2666666666666p-1` (just below 0.575) and its product with
100 is `0x1.cbfffffffffffp+5`, the double just below 57.5; `268435456 / maxSize * 100` is
exactly 2.5. -/
theorem fl_known_values :
    fl 1 10 = ⟨7205759403792794, 2 ^ 56⟩ ∧
    jsDiv (Dbl.ofNat 6174015488) (Dbl.ofNat AppModule.maxSize) = ⟨5179139571476070, 2 ^ 53⟩ ∧
    jsMul (jsDiv (Dbl.ofNat 6174015488) (Dbl.ofNat AppModule.maxSize)) (Dbl.ofNat 100)
      = ⟨8092405580431359, 2 ^ 47⟩ ∧
    jsMul (jsDiv (Dbl.ofNat 268435456) (Dbl.ofNat AppModule.maxSize)) (Dbl.ofNat 100)
      = ⟨5629499534213120, 2 ^ 51⟩ := by
  decide

/-- Rounding to the nearest double has relative error at most `2 ^ (-53)`. -/
theorem fl_rel_error (p q : Nat) (hp : 1 ≤ p) (hq : 1 ≤ q) (hb : ilog2 q ≤ 1021) :
    ((p : ℚ) / q) * (1 - 1 / 2 ^ 53) ≤ (fl p q).toRat ∧
    (fl p q).toRat ≤ ((p : ℚ) / q) * (1 + 1 / 2 ^ 53) := by
  have hw := flExp_window p q hp hq hb
  have hr := roundHalfEven_bounds (p * 2 ^ (-(flExp p q)).toNat) (q * 2 ^ (flExp p q).toNat)
    (by positivity)
  have hp0 : p ≠ 0 := by omega
  unfold fl Dbl.toRat
  simp only [hp0, if_false]
  generalize (flExp p q).toNat = b at *
  generalize (-(flExp p q)).toNat = a at *
  generalize roundHalfEven (p * 2 ^ a) (q * 2 ^ b) = m at *
  have hwq : (2 : ℚ) ^ 52 * (q * 2 ^ b) ≤ p * 2 ^ a := by exact_mod_cast hw
  have hr1 : (2 : ℚ) * (q * 2 ^ b * m) ≤ 2 * (p * 2 ^ a) + q * 2 ^ b := by exact_mod_cast hr.1
  have hr2 : (2 : ℚ) * (p * 2 ^ a) ≤ 2 * (q * 2 ^ b * m) + q * 2 ^ b := by exact_mod_cast hr.2
  have hA : (0 : ℚ) < 2 ^ a := by positivity
  have hB : (0 : ℚ) < 2 ^ b := by positivity
  have hQ : (0 : ℚ) < q := by exact_mod_cast hq
  push_cast
  generalize (2 : ℚ) ^ a = A at *
  generalize (2 : ℚ) ^ b = B at *
  have e1 : (m : ℚ) * B / A = (q * B * m) / (q * A) := by
    field_simp; ring
  have e2 : ∀ c : ℚ, (p : ℚ) / q * c = (p * A * c) / (q * A) := by
    intro c; field_simp; ring
  rw [e1, e2, e2]
  have hqA : (0 : ℚ) < q * A := by positivity
  constructor
  · apply div_le_div_of_nonneg_right _ hqA.le
    norm_num at hwq ⊢
    linarith
  · apply div_le_div_of_nonneg_right _ hqA.le
    norm_num at hwq ⊢
    linarith

theorem fl_den_pos (p q : Nat) : 0 < (fl p q).den := by
  unfold fl
  split
  · norm_num
  · positivity

theorem fl_den_ilog2 (p q : Nat) : ilog2 (fl p q).den ≤ ilog2 q + 53 := by
  unfold fl
  split
  · rw [ilog2_one]; omega
  · have h := flExp_ge p q
    simp only
    have h1 : (2 : Nat) ^ (-(flExp p q)).toNat < 2 ^ (ilog2 q + 54) :=
      Nat.pow_lt_pow_right (by norm_num) (by omega)
    have := ilog2_lt_of_lt_pow _ _ (Nat.one_le_two_pow) h1
    omega

theorem ilog2_maxSize : ilog2 AppModule.maxSize = 33 := by decide

theorem toRat_pos_num (x : Dbl) (h : 0 < x.toRat) : 1 ≤ x.num := by
  by_contra hc
  have h0 : x.num = 0 := by omega
  simp [Dbl.toRat, h0] at h

/-- The value `Math.round` sees is within a relative `(1 ± 2 ^ (-53)) ^ 2` of the exact
percentage `100 * total / AppModule.maxSize`. -/
theorem percentage_value_bounds (t : Nat) (ht : 1 ≤ t) :
    let z := jsMul (jsDiv (Dbl.ofNat t) (Dbl.ofNat AppModule.maxSize)) (Dbl.ofNat 100)
    0 < z.den ∧
    100 * ((t : ℚ) / AppModule.maxSize) * (1 - 1 / 2 ^ 53) * (1 - 1 / 2 ^ 53) ≤ z.toRat ∧
    z.toRat ≤ 100 * ((t : ℚ) / AppModule.maxSize) * (1 + 1 / 2 ^ 53) * (1 + 1 / 2 ^ 53) := by
  intro z
  have hy := fl_rel_error t AppModule.maxSize ht (by decide) (by rw [ilog2_maxSize]; omega)
  have hT : (0 : ℚ) < (t : ℚ) / AppModule.maxSize := by
    have : (0 : ℚ) < t := by exact_mod_cast ht
    have : (0 : ℚ) < AppModule.maxSize := by norm_num [AppModule.maxSize]
    positivity
  have hYpos : 0 < (fl t AppModule.maxSize).toRat := by
    have : (0 : ℚ) < (t : ℚ) / AppModule.maxSize * (1 - 1 / 2 ^ 53) := by
      apply mul_pos hT; norm_num
    linarith [hy.1]
  have hnum := toRat_pos_num _ hYpos
  have hden := fl_den_pos t AppModule.maxSize
  have hlog := fl_den_ilog2 t AppModule.maxSize
  rw [ilog2_maxSize] at hlog
  have hz := fl_rel_error ((fl t AppModule.maxSize).num * 100) ((fl t AppModule.maxSize).den * 1)
    (by omega) (by omega) (by rw [Nat.mul_one]; omega)
  have hzEq : z = fl ((fl t AppModule.maxSize).num * 100) ((fl t AppModule.maxSize).den * 1) := by
    simp only [z, jsMul, jsDiv, Dbl.ofNat, Nat.mul_one, Nat.one_mul]
  have hW : (((fl t AppModule.maxSize).num * 100 : ℕ) : ℚ) / (((fl t AppModule.maxSize).den * 1 : ℕ) : ℚ)
      = 100 * (fl t AppModule.maxSize).toRat := by
    simp only [Dbl.toRat]; push_cast; ring
  rw [hW] at hz
  rw [hzEq]
  refine ⟨fl_den_pos _ _, ?_, ?_⟩
  · have h1 : (0:ℚ) ≤ 1 - 1 / 2 ^ 53 := by norm_num
    calc 100 * ((t : ℚ) / AppModule.maxSize) * (1 - 1 / 2 ^ 53) * (1 - 1 / 2 ^ 53)
        = 100 * ((t : ℚ) / AppModule.maxSize * (1 - 1 / 2 ^ 53)) * (1 - 1 / 2 ^ 53) := by ring
      _ ≤ 100 * (fl t AppModule.maxSize).toRat * (1 - 1 / 2 ^ 53) := by
          apply mul_le_mul_of_nonneg_right _ h1
          linarith [hy.1]
      _ ≤ _ := hz.1
  · have h1 : (0:ℚ) ≤ 1 + 1 / 2 ^ 53 := by norm_num
    calc (fl ((fl t AppModule.maxSize).num * 100) ((fl t AppModule.maxSize).den * 1)).toRat
        ≤ 100 * (fl t AppModule.maxSize).toRat * (1 + 1 / 2 ^ 53) := hz.2
      _ ≤ 100 * ((t : ℚ) / AppModule.maxSize * (1 + 1 / 2 ^ 53)) * (1 + 1 / 2 ^ 53) := by
          apply mul_le_mul_of_nonneg_right _ h1
          linarith [hy.2]
      _ = _ := by ring

/-- `Math.round` of a `Dbl` against an integer, from below. -/
theorem le_mathRound (x : Dbl) (k : Nat) (hd : 0 < x.den) (h : (k : ℚ) ≤ x.toRat + 1 / 2) :
    k ≤ mathRound x := by
  unfold mathRound
  rw [Nat.le_div_iff_mul_le (by omega)]
  have hdq : (0 : ℚ) < x.den := by exact_mod_cast hd
  have h1 : (k : ℚ) - 1 / 2 ≤ (x.num : ℚ) / x.den := by
    unfold Dbl.toRat at h; linarith
  rw [le_div_iff₀ hdq] at h1
  have h2 : (k : ℚ) * (2 * x.den) ≤ 2 * x.num + x.den := by linarith
  exact_mod_cast h2

/-- `Math.round` of a `Dbl` against an integer, from above. -/
theorem mathRound_lt (x : Dbl) (k : Nat) (hd : 0 < x.den) (h : x.toRat + 1 / 2 < (k : ℚ)) :
    mathRound x < k := by
  unfold mathRound
  rw [Nat.div_lt_iff_lt_mul (by omega)]
  have hdq : (0 : ℚ) < x.den := by exact_mod_cast hd
  have h1 : (x.num : ℚ) / x.den < (k : ℚ) - 1 / 2 := by
    unfold Dbl.toRat at h; linarith
  rw [div_lt_iff₀ hdq] at h1
  have h2 : (2 : ℚ) * x.num + x.den < k * (2 * x.den) := by linarith
  exact_mod_cast h2

theorem maxSize_eq : AppModule.maxSize = 10737418240 := by decide

/-- For totals up to `2 ^ 49` bytes the value `Math.round` sees differs from the exact
percentage `5 * total / 2 ^ 29` by less than `3 / 2 ^ 31`, which is below the spacing
`1 / 2 ^ 29` of the exact percentages. -/
theorem percentage_value_near (t : Nat) (hpos : 1 ≤ t) (ht : t ≤ 2 ^ 49) :
    0 < (jsMul (jsDiv (Dbl.ofNat t) (Dbl.ofNat AppModule.maxSize)) (Dbl.ofNat 100)).den ∧
    (5 : ℚ) * t / 536870912 - 3 / 2147483648
      ≤ (jsMul (jsDiv (Dbl.ofNat t) (Dbl.ofNat AppModule.maxSize)) (Dbl.ofNat 100)).toRat ∧
    (jsMul (jsDiv (Dbl.ofNat t) (Dbl.ofNat AppModule.maxSize)) (Dbl.ofNat 100)).toRat
      ≤ (5 : ℚ) * t / 536870912 + 3 / 2147483648 := by
  obtain ⟨hden, hlo, hhi⟩ := percentage_value_bounds t hpos
  generalize jsMul (jsDiv (Dbl.ofNat t) (Dbl.ofNat AppModule.maxSize)) (Dbl.ofNat 100) = z at *
  rw [maxSize_eq] at hlo hhi
  have ht' : t ≤ 562949953421312 := by norm_num at ht; exact ht
  have htq : (t : ℚ) ≤ 562949953421312 := by exact_mod_cast ht'
  have htq0 : (0 : ℚ) ≤ t := by positivity
  refine ⟨hden, ?_, ?_⟩
  · refine le_trans ?_ hlo
    push_cast
    norm_num
    linarith
  · refine le_trans hhi ?_
    push_cast
    norm_num
    linarith

/-- For totals up to `2 ^ 49` bytes the computed percentage is the exact percentage
rounded half up, or one less; it is the former whenever the exact percentage is not
halfway between two integers. -/
theorem percentageOf_near (t : Nat) (ht : t ≤ 2 ^ 49) :
    AppModule.percentageOf t ≤ halfUpPercent t ∧
    halfUpPercent t ≤ AppModule.percentageOf t + 1 ∧
    ((∀ k : Nat, 2 * (t * 100) ≠ (2 * k + 1) * AppModule.maxSize) →
      AppModule.percentageOf t = halfUpPercent t) := by
  rcases Nat.eq_zero_or_pos t with h0 | hpos
  · subst h0
    have h1 : AppModule.percentageOf 0 = 0 := by decide
    have h2 : halfUpPercent 0 = 0 := by decide
    rw [h1, h2]
    exact ⟨le_rfl, by omega, fun _ => rfl⟩
  · obtain ⟨hden, hlo2, hhi2⟩ := percentage_value_near t hpos ht
    have hE1 : halfUpPercent t * (2 * AppModule.maxSize) ≤ 2 * (t * 100) + AppModule.maxSize :=
      Nat.div_mul_le_self _ _
    have hE2 : 2 * (t * 100) + AppModule.maxSize < (halfUpPercent t + 1) * (2 * AppModule.maxSize) := by
      have := Nat.lt_div_mul_add (a := 2 * (t * 100) + AppModule.maxSize) (b := 2 * AppModule.maxSize)
        (by norm_num [AppModule.maxSize])
      unfold halfUpPercent
      linarith
    generalize halfUpPercent t = E at *
    unfold AppModule.percentageOf
    generalize jsMul (jsDiv (Dbl.ofNat t) (Dbl.ofNat AppModule.maxSize)) (Dbl.ofNat 100) = z at *
    rw [maxSize_eq] at hE1 hE2 ⊢
    have hE1n : E * 536870912 ≤ 5 * t + 268435456 := by omega
    have hE2n : 5 * t + 268435456 + 1 ≤ (E + 1) * 536870912 := by omega
    have hE1q : (E : ℚ) * 536870912 ≤ 5 * t + 268435456 := by exact_mod_cast hE1n
    have hE2q : (5 : ℚ) * t + 268435456 + 1 ≤ (E + 1) * 536870912 := by exact_mod_cast hE2n
    have hup : mathRound z < E + 1 := by
      apply mathRound_lt z (E + 1) hden
      push_cast
      linarith
    have hlow : E ≤ mathRound z + 1 := by
      rcases Nat.eq_zero_or_pos E with hz | hEpos
      · omega
      · have : E - 1 ≤ mathRound z := by
          apply le_mathRound z (E - 1) hden
          have hcast : ((E - 1 : ℕ) : ℚ) = (E : ℚ) - 1 := by
            rw [Nat.cast_sub hEpos]; simp
          rw [hcast]
          linarith
        omega
    refine ⟨by omega, hlow, ?_⟩
    intro hnh
    have hne : E * 536870912 ≠ 5 * t + 268435456 := by
      intro h
      rcases Nat.eq_zero_or_pos E with hz | hEpos
      · rw [hz] at h
        simp at h
      · obtain ⟨F, rfl⟩ : ∃ F, E = F + 1 := ⟨E - 1, (Nat.sub_add_cancel hEpos).symm⟩
        apply hnh F
        linarith
    have hstrict : E * 536870912 + 1 ≤ 5 * t + 268435456 := lt_of_le_of_ne hE1n hne
    have hsq : (E : ℚ) * 536870912 + 1 ≤ 5 * t + 268435456 := by exact_mod_cast hstrict
    have hge : E ≤ mathRound z := by
      apply le_mathRound z E hden
      linarith
    exact le_antisymm (Nat.lt_succ_iff.mp hup) hge

/-- No clamping: a total above 100.5 % of `AppModule.maxSize` gives a percentage above 100. -/
theorem percentageOf_above (t : Nat) (ht : t ≤ 2 ^ 49) (h : 201 * AppModule.maxSize < 200 * t) :
    100 < AppModule.percentageOf t := by
  rw [maxSize_eq] at h
  have hpos : 1 ≤ t := by omega
  obtain ⟨hden, hlo2, _⟩ := percentage_value_near t hpos ht
  have hn : 201 * 268435456 + 1 ≤ 5 * t := by omega
  have hq : (201 : ℚ) * 268435456 + 1 ≤ 5 * t := by exact_mod_cast hn
  have : 101 ≤ AppModule.percentageOf t := by
    apply le_mathRound _ 101 hden
    push_cast
    linarith
  omega

/-- The integer formula `halfUpPercent` is `total * 100 / AppModule.maxSize` rounded to the nearest
integer with halves up: the floor of the quotient plus one half. -/
theorem halfUpPercent_eq_floor (t : Nat) :
    halfUpPercent t = ⌊((t : ℚ) * 100 / AppModule.maxSize) + 1 / 2⌋₊ := by
  have hM : (0 : ℚ) < AppModule.maxSize := by norm_num [AppModule.maxSize]
  have e : ((t : ℚ) * 100 / AppModule.maxSize) + 1 / 2
      = ((2 * (t * 100) + AppModule.maxSize : ℕ) : ℚ) / ((2 * AppModule.maxSize : ℕ) : ℚ) := by
    push_cast
    field_simp
    ring
  rw [e, Nat.floor_div_eq_div]
  rfl

/-- Additions stay exact while the sum is below `2 ^ 53`. -/
theorem foldl_jsAdd_eq (sizes : List Nat) (acc : Nat) (h : acc + sizes.sum < 2 ^ 53) :
    sizes.foldl jsAdd acc = acc + sizes.sum := by
  induction sizes generalizing acc with
  | nil => simp
  | cons x xs ih =>
    simp only [List.sum_cons] at h
    have hx : jsAdd acc x = acc + x := toDouble_eq _ (by omega)
    simp only [List.foldl_cons, List.sum_cons, hx]
    rw [ih (acc + x) (by omega)]
    omega

/-! ## Claims on the upload workflow -/

/-- C1: the primary upload `SupabaseModule.uploadPDF` is invoked exactly when the type of the
file contains `pdf` and its size is at most 209,715,200 bytes; in every other case the
trace is one error toast, so no remote operation is called and no request is issued. -/
theorem C1_primary_upload_iff_valid (env : Env) (file : File) (dom : Dom) :
    (Event.uploadPDF file ∈ (AppModule.handleFileUpload env file dom).2 ↔
      ((∃ a b, file.type.data = a ++ "pdf".data ++ b) ∧ file.size ≤ 209715200)) ∧
    (¬ ((∃ a b, file.type.data = a ++ "pdf".data ++ b) ∧ file.size ≤ 209715200) →
      (∃ message, (AppModule.handleFileUpload env file dom).2 = [Event.toast message "error" 3000]) ∧
      (∀ ev ∈ (AppModule.handleFileUpload env file dom).2,
        ev.isErrorToast = true ∧ ev.isRemoteCall = false)) := by
  rw [← includes_pdf_iff]
  unfold AppModule.handleFileUpload
  by_cases hType : includes file.type "pdf" = true
  · by_cases hSize : file.size ≤ 209715200
    · have hGuard : ¬ file.size > AppModule.maxUploadSize := by
        simp only [AppModule.maxUploadSize]; omega
      refine ⟨?_, fun h => absurd ⟨hType, hSize⟩ h⟩
      simp only [hType, hGuard, Bool.not_true, Bool.false_eq_true, if_false, hSize, and_self,
        iff_true]
      split
      · simp
      · split <;> simp
    · have hGuard : file.size > AppModule.maxUploadSize := by
        simp only [AppModule.maxUploadSize]; omega
      simp [hType, hGuard, hSize, AppModule.showToast, Event.isErrorToast, Event.isRemoteCall]
  · simp [hType, AppModule.showToast, Event.isErrorToast, Event.isRemoteCall]

/-- C1, at concrete files: a PDF of exactly 209,715,200 bytes reaches the primary upload,
a PDF of 209,715,201 bytes and a text file end in a single error toast. -/
theorem C1_primary_upload_iff_valid_witness :
    Event.uploadPDF pdfFile ∈ (AppModule.handleFileUpload mockEnv pdfFile pickedDom).2 ∧
    ((∃ message, (AppModule.handleFileUpload mockEnv bigPdfFile pickedDom).2
        = [Event.toast message "error" 3000]) ∧
      (∀ ev ∈ (AppModule.handleFileUpload mockEnv bigPdfFile pickedDom).2,
        ev.isErrorToast = true ∧ ev.isRemoteCall = false)) ∧
    ((∃ message, (AppModule.handleFileUpload offlineEnv textFile pickedDom).2
        = [Event.toast message "error" 3000]) ∧
      (∀ ev ∈ (AppModule.handleFileUpload offlineEnv textFile pickedDom).2,
        ev.isErrorToast = true ∧ ev.isRemoteCall = false)) :=
  ⟨(C1_primary_upload_iff_valid mockEnv pdfFile pickedDom).1.mpr
      ⟨(includes_pdf_iff pdfFile).mp (by decide), by decide⟩,
    (C1_primary_upload_iff_valid mockEnv bigPdfFile pickedDom).2
      (fun h => absurd h.2 (by decide)),
    (C1_primary_upload_iff_valid offlineEnv textFile pickedDom).2
      (fun h => absurd ((includes_pdf_iff textFile).mpr h.1) (by decide))⟩

/-- C2: for a file that passes validation, when the primary upload returns
`success = false` the trace is: progress toast, primary upload (with its request), failure
toast of type `error`.  The secondary upload is not called and the toast reporting success
is not shown. -/
theorem C2_primary_failure_stops (env : Env) (file : File) (dom : Dom)
    (hType : includes file.type "pdf" = true) (hSize : file.size ≤ 209715200)
    (hFail : (SupabaseModule.uploadPDF env file).2.success = false) :
    (AppModule.handleFileUpload env file dom).2
        = [Event.toast "جاري تحميل الملف..." "success" 5000, Event.uploadPDF file]
          ++ (SupabaseModule.uploadPDF env file).1
          ++ [Event.toast "فشل تحميل الملف إلى السحابة" "error" 3000] ∧
    (∀ f metadata, Event.uploadToDrive f metadata ∉ (AppModule.handleFileUpload env file dom).2) ∧
    (∀ type duration,
      Event.toast "تم رفع الملف بنجاح" type duration ∉ (AppModule.handleFileUpload env file dom).2) := by
  have hGuard : ¬ file.size > AppModule.maxUploadSize := by
    simp only [AppModule.maxUploadSize]; omega
  have hTrace : (AppModule.handleFileUpload env file dom).2
        = [Event.toast "جاري تحميل الملف..." "success" 5000, Event.uploadPDF file]
          ++ (SupabaseModule.uploadPDF env file).1
          ++ [Event.toast "فشل تحميل الملف إلى السحابة" "error" 3000] := by
    simp [AppModule.handleFileUpload, hType, hGuard, hFail, AppModule.showToast]
  refine ⟨hTrace, ?_, ?_⟩
  · intro f metadata hmem
    rw [hTrace] at hmem
    simp only [List.mem_append, List.mem_cons, List.mem_singleton, List.not_mem_nil, or_false,
      reduceCtorEq, false_or] at hmem
    have := uploadPDF_events env file _ hmem
    simp at this
  · intro type duration hmem
    rw [hTrace] at hmem
    simp only [List.mem_append, List.mem_cons, List.mem_singleton, List.not_mem_nil, or_false,
      reduceCtorEq, Event.toast.injEq] at hmem
    rcases hmem with (h | h) | h
    · exact absurd h.1 (by decide)
    · have := uploadPDF_events env file _ h
      simp at this
    · exact absurd h.1 (by decide)

/-- C2, at a concrete run: the primary client is configured and the network is down. -/
theorem C2_primary_failure_stops_witness :
    (AppModule.handleFileUpload offlineEnv pdfFile pickedDom).2
        = [Event.toast "جاري تحميل الملف..." "success" 5000, Event.uploadPDF pdfFile]
          ++ (SupabaseModule.uploadPDF offlineEnv pdfFile).1
          ++ [Event.toast "فشل تحميل الملف إلى السحابة" "error" 3000] ∧
    (∀ f metadata,
      Event.uploadToDrive f metadata ∉ (AppModule.handleFileUpload offlineEnv pdfFile pickedDom).2) ∧
    (∀ type duration,
      Event.toast "تم رفع الملف بنجاح" type duration
        ∉ (AppModule.handleFileUpload offlineEnv pdfFile pickedDom).2) :=
  C2_primary_failure_stops offlineEnv pdfFile pickedDom (by decide) (by decide) (by decide)

/-- When `drive.js` has loaded, a file that passes validation and whose primary upload
returns `success = true` runs to the end, whatever the secondary upload returns: progress
toast, primary upload, the secondary upload called with metadata whose `supabaseUrl` is the
`url` of the primary result, the success toast, and then `loadDashboard`: the files are
listed from the primary client, rendered, and the statistics are recomputed from that
list. -/
theorem handleFileUpload_completes (env : Env) (file : File) (dom : Dom)
    (hType : includes file.type "pdf" = true) (hSize : file.size ≤ 209715200)
    (hOk : (SupabaseModule.uploadPDF env file).2.success = true)
    (hProcess : env.hasProcess = true) :
    (AppModule.handleFileUpload env file dom).2
        = [Event.toast "جاري تحميل الملف..." "success" 5000, Event.uploadPDF file]
          ++ (SupabaseModule.uploadPDF env file).1
          ++ [Event.uploadToDrive file
                ⟨env.isoNow, (SupabaseModule.uploadPDF env file).2.url⟩]
          ++ (DriveModule.uploadToDrive env file
                ⟨env.isoNow, (SupabaseModule.uploadPDF env file).2.url⟩).1
          ++ [Event.toast "تم رفع الملف بنجاح" "success" 3000]
          ++ AppModule.loadDashboard env ∧
    AppModule.loadDashboard env
        = [Event.listFiles] ++ (SupabaseModule.listFiles env).1
          ++ [Event.renderFileTable (SupabaseModule.listFiles env).2,
              Event.updateStats (AppModule.updateStatistics env (SupabaseModule.listFiles env).2)] := by
  have hGuard : ¬ file.size > AppModule.maxUploadSize := by
    simp only [AppModule.maxUploadSize]; omega
  refine ⟨?_, rfl⟩
  simp [AppModule.handleFileUpload, hType, hGuard, hOk, hProcess, AppModule.showToast,
    AppModule.driveMetadata]

/-- The run of `handleFileUpload_completes` with a secondary upload that fails: the primary
client is in mock mode, the secondary one is configured and unreachable; the success toast
and the refresh are there all the same. -/
theorem handleFileUpload_completes_drive_down :
    (DriveModule.uploadToDrive driveDownEnv pdfFile
        ⟨driveDownEnv.isoNow, (SupabaseModule.uploadPDF driveDownEnv pdfFile).2.url⟩).2.success
      = false ∧
    (AppModule.handleFileUpload driveDownEnv pdfFile pickedPdfDom).2
        = [Event.toast "جاري تحميل الملف..." "success" 5000, Event.uploadPDF pdfFile]
          ++ (SupabaseModule.uploadPDF driveDownEnv pdfFile).1
          ++ [Event.uploadToDrive pdfFile
                ⟨driveDownEnv.isoNow, (SupabaseModule.uploadPDF driveDownEnv pdfFile).2.url⟩]
          ++ (DriveModule.uploadToDrive driveDownEnv pdfFile
                ⟨driveDownEnv.isoNow, (SupabaseModule.uploadPDF driveDownEnv pdfFile).2.url⟩).1
          ++ [Event.toast "تم رفع الملف بنجاح" "success" 3000]
          ++ AppModule.loadDashboard driveDownEnv :=
  ⟨by decide,
    (handleFileUpload_completes driveDownEnv pdfFile pickedPdfDom
      (by decide) (by decide) (by decide) rfl).1⟩

/-- C3, where the code breaks it: on a plain page (no global `process`, nothing configured)
a PDF of 209,715,200 bytes passes validation and the primary upload returns
`success = true`; the call then ends in an uncaught `ReferenceError` at the expression
`DriveModule.uploadToDrive`.  The secondary upload is not called, no success is reported,
the files are not listed again and the page is left as it was. -/
theorem C3_secondary_module_missing :
    includes pdfFile.type "pdf" = true ∧ pdfFile.size ≤ 209715200 ∧
    (SupabaseModule.uploadPDF plainPageEnv pdfFile).2.success = true ∧
    AppModule.handleFileUpload plainPageEnv pdfFile pickedPdfDom
      = (pickedPdfDom,
          [Event.toast "جاري تحميل الملف..." "success" 5000, Event.uploadPDF pdfFile,
            Event.uncaught "ReferenceError"]) ∧
    (∀ f metadata,
      Event.uploadToDrive f metadata
        ∉ (AppModule.handleFileUpload plainPageEnv pdfFile pickedPdfDom).2) ∧
    (∀ type duration,
      Event.toast "تم رفع الملف بنجاح" type duration
        ∉ (AppModule.handleFileUpload plainPageEnv pdfFile pickedPdfDom).2) ∧
    Event.listFiles ∉ (AppModule.handleFileUpload plainPageEnv pdfFile pickedPdfDom).2 := by
  have hRun : AppModule.handleFileUpload plainPageEnv pdfFile pickedPdfDom
      = (pickedPdfDom,
          [Event.toast "جاري تحميل الملف..." "success" 5000, Event.uploadPDF pdfFile,
            Event.uncaught "ReferenceError"]) := by
    decide
  refine ⟨by decide, by decide, by decide, hRun, ?_, ?_, ?_⟩
  · intro f metadata
    rw [hRun]
    simp
  · intro type duration
    rw [hRun]
    simp only [List.mem_cons, List.mem_singleton, List.not_mem_nil, or_false, reduceCtorEq,
      Event.toast.injEq, not_or, not_false_eq_true, and_true]
    intro h
    exact absurd h.1 (by decide)
  · rw [hRun]
    simp

/-- C4, refuted as stated: after a validation failure the value of the upload input is
not the empty string; it is what it was before the call. -/
theorem C4_control_not_cleared_on_rejection :
    (AppModule.handleFileUpload mockEnv textFile pickedDom).1.fileInputValue
        = "C:\\fakepath\\notes.txt" ∧
    (AppModule.handleFileUpload mockEnv textFile pickedDom).1.fileInputValue ≠ "" := by
  decide

/-- C4, amended: on the three early exits (type without `pdf`, size above the limit,
primary upload failed) the value of the upload input is left as it was; when the file passes
validation, the primary upload succeeds and the secondary module is there (`drive.js`
loaded), the run reaches its last statement and the value is the empty string. -/
theorem C4_control_cleared_on_completion_only (env : Env) (file : File) (dom : Dom) :
    ((includes file.type "pdf" = false ∨ 209715200 < file.size
        ∨ (SupabaseModule.uploadPDF env file).2.success = false) →
      (AppModule.handleFileUpload env file dom).1.fileInputValue = dom.fileInputValue) ∧
    (includes file.type "pdf" = true → file.size ≤ 209715200 →
      (SupabaseModule.uploadPDF env file).2.success = true → env.hasProcess = true →
      (AppModule.handleFileUpload env file dom).1.fileInputValue = "") := by
  unfold AppModule.handleFileUpload
  constructor
  · intro h
    by_cases hType : includes file.type "pdf" = true
    · by_cases hGuard : file.size > AppModule.maxUploadSize
      · simp [hType, hGuard]
      · have hOk : (SupabaseModule.uploadPDF env file).2.success = false := by
          rcases h with h | h | h
          · rw [h] at hType; exact absurd hType (by decide)
          · exact absurd h (by simp only [AppModule.maxUploadSize] at hGuard; omega)
          · exact h
        simp [hType, hGuard, hOk]
    · simp [hType]
  · intro hType hSize hOk hProcess
    have hGuard : ¬ file.size > AppModule.maxUploadSize := by
      simp only [AppModule.maxUploadSize]; omega
    simp [hType, hGuard, hOk, hProcess]

/-- C4 amended, at concrete runs: a text file, a PDF one byte too large and a PDF whose
primary upload fails leave the picked path in the control; a PDF that goes through clears
it. -/
theorem C4_control_cleared_on_completion_only_witness :
    (AppModule.handleFileUpload mockEnv textFile pickedDom).1.fileInputValue
      = pickedDom.fileInputValue ∧
    (AppModule.handleFileUpload mockEnv bigPdfFile pickedPdfDom).1.fileInputValue
      = pickedPdfDom.fileInputValue ∧
    (AppModule.handleFileUpload offlineEnv pdfFile pickedPdfDom).1.fileInputValue
      = pickedPdfDom.fileInputValue ∧
    (AppModule.handleFileUpload mockEnv pdfFile pickedPdfDom).1.fileInputValue = "" :=
  ⟨(C4_control_cleared_on_completion_only mockEnv textFile pickedDom).1 (Or.inl (by decide)),
    (C4_control_cleared_on_completion_only mockEnv bigPdfFile pickedPdfDom).1
      (Or.inr (Or.inl (by decide))),
    (C4_control_cleared_on_completion_only offlineEnv pdfFile pickedPdfDom).1
      (Or.inr (Or.inr (by decide))),
    (C4_control_cleared_on_completion_only mockEnv pdfFile pickedPdfDom).2
      (by decide) (by decide) (by decide) rfl⟩

/-! ## Claims on the statistics -/

/-- The total of `updateStatistics` is the sum of the sizes while that sum is exact. -/
theorem totalSize_eq_sum (files : List FileRecord)
    (h : (files.map (fun f => f.size.getD 0)).sum < 2 ^ 53) :
    AppModule.totalSize files = (files.map (fun f => f.size.getD 0)).sum := by
  have h1 := foldl_jsAdd_eq (files.map (fun f => f.size.getD 0)) 0 (by omega)
  rw [List.foldl_map] at h1
  unfold AppModule.totalSize
  omega

/-- C5, refuted as stated for every list: for two records of sizes `2 ^ 53` and 1 the sum of
the sizes is 9,007,199,254,740,993 while `totalSize` is 9,007,199,254,740,992, the sum
rounded to a JavaScript number; the two counts are still the length of the list. -/
theorem C5_total_rounded_above_2_pow_53 :
    (hugeFiles.map (fun f => f.size.getD 0)).sum = 9007199254740993 ∧
    AppModule.totalSize hugeFiles = 9007199254740992 ∧
    AppModule.totalSize hugeFiles ≠ (hugeFiles.map (fun f => f.size.getD 0)).sum ∧
    (AppModule.updateStatistics mockEnv hugeFiles).totalFiles = 2 ∧
    (AppModule.updateStatistics mockEnv hugeFiles).fileCount = 2 := by
  decide

/-- C5, amended: for every list of file records `updateStatistics` reports
`totalFiles = fileCount =` the length of the list and `activeUsers = 1254`; and when the
sizes add up to less than `2 ^ 53` bytes (the range in which JavaScript numbers add integers
exactly) it computes `totalSize` as the sum of the sizes, a missing size counting as 0, and
the displayed space is the rendering of that sum. -/
theorem C5_statistics_totals (env : Env) (files : List FileRecord) :
    (AppModule.updateStatistics env files).totalFiles = files.length ∧
    (AppModule.updateStatistics env files).fileCount = files.length ∧
    (AppModule.updateStatistics env files).activeUsers = 1254 ∧
    ((files.map (fun f => f.size.getD 0)).sum < 2 ^ 53 →
      AppModule.totalSize files = (files.map (fun f => f.size.getD 0)).sum ∧
      (AppModule.updateStatistics env files).usedSpace
        = env.formatFileSize (files.map (fun f => f.size.getD 0)).sum) := by
  refine ⟨rfl, rfl, rfl, fun h => ?_⟩
  have ht := totalSize_eq_sum files h
  refine ⟨ht, ?_⟩
  simp only [AppModule.updateStatistics, ht]

/-- C5 amended, at the list of the specification: sizes `1200 * 1024`, `undefined`,
`2400 * 1024` give the total `3600 * 1024` and the count 3. -/
theorem C5_statistics_totals_witness :
    (specFiles.map (fun f => f.size.getD 0)).sum < 2 ^ 53 ∧
    AppModule.totalSize specFiles = 3600 * 1024 ∧
    (AppModule.updateStatistics mockEnv specFiles).totalFiles = 3 ∧
    (AppModule.updateStatistics mockEnv specFiles).fileCount = 3 ∧
    (AppModule.updateStatistics mockEnv specFiles).activeUsers = 1254 :=
  ⟨by decide,
    ((C5_statistics_totals mockEnv specFiles).2.2.2 (by decide)).1.trans (by decide),
    (C5_statistics_totals mockEnv specFiles).1,
    (C5_statistics_totals mockEnv specFiles).2.1,
    (C5_statistics_totals mockEnv specFiles).2.2.1⟩

/-- C6, refuted as stated: for two files of 3 GiB and 2.75 GiB the total is 6,174,015,488
bytes, exactly 57.5 % of 10 GiB; rounding half up gives 58, `updateStatistics` reports 57
(the double `total / maxSize` times 100 is just below 57.5). -/
theorem C6_half_percent_rounded_down :
    AppModule.totalSize videoFiles = 6174015488 ∧
    2 * (6174015488 * 100) = (2 * 57 + 1) * AppModule.maxSize ∧
    halfUpPercent (AppModule.totalSize videoFiles) = 58 ∧
    (AppModule.updateStatistics mockEnv videoFiles).progressBar = 57 ∧
    (AppModule.updateStatistics mockEnv videoFiles).progressBar
      ≠ halfUpPercent (AppModule.totalSize videoFiles) := by
  decide

/-- C6, amended: for every list of file records whose sizes add up to at most `2 ^ 49`
bytes, the percentage of `updateStatistics` is `Math.round` of the double
`(total / maxSize) * 100`.  It equals `total * 100 / 10,737,418,240` rounded to the
nearest integer whenever that quotient is not exactly halfway between two integers; at an
exact half it is the half-up value or one less.  It is not clamped: a total above 100.5 %
of 10 GiB gives more than 100.  A total of 268,435,456 bytes gives 3, one of 1,073,741,824
bytes gives 10, one of 11 GiB gives 110.  The same integer is the `progressBar` value and the
number in the `storagePercent` text. -/
theorem C6_percentage_rounding (env : Env) (files : List FileRecord)
    (h : (files.map (fun f => f.size.getD 0)).sum ≤ 2 ^ 49) :
    (AppModule.updateStatistics env files).storagePercent
      = toString (AppModule.updateStatistics env files).progressBar ++ "% من 10GB" ∧
    (AppModule.updateStatistics env files).progressBar
      ≤ halfUpPercent (files.map (fun f => f.size.getD 0)).sum ∧
    halfUpPercent (files.map (fun f => f.size.getD 0)).sum
      ≤ (AppModule.updateStatistics env files).progressBar + 1 ∧
    ((∀ k : Nat, 2 * ((files.map (fun f => f.size.getD 0)).sum * 100)
        ≠ (2 * k + 1) * AppModule.maxSize) →
      (AppModule.updateStatistics env files).progressBar
        = halfUpPercent (files.map (fun f => f.size.getD 0)).sum) ∧
    (201 * AppModule.maxSize < 200 * (files.map (fun f => f.size.getD 0)).sum →
      100 < (AppModule.updateStatistics env files).progressBar) ∧
    ((files.map (fun f => f.size.getD 0)).sum = 268435456 →
      (AppModule.updateStatistics env files).progressBar = 3) ∧
    ((files.map (fun f => f.size.getD 0)).sum = 1073741824 →
      (AppModule.updateStatistics env files).progressBar = 10) ∧
    ((files.map (fun f => f.size.getD 0)).sum = 11 * 1073741824 →
      (AppModule.updateStatistics env files).progressBar = 110) := by
  have hlt : (files.map (fun f => f.size.getD 0)).sum < 2 ^ 53 :=
    lt_of_le_of_lt h (by norm_num)
  have ht := totalSize_eq_sum files hlt
  have hp : (AppModule.updateStatistics env files).progressBar
      = AppModule.percentageOf (files.map (fun f => f.size.getD 0)).sum := by
    simp only [AppModule.updateStatistics, ht]
  obtain ⟨h1, h2, h3⟩ := percentageOf_near _ h
  refine ⟨rfl, ?_, ?_, ?_, ?_, ?_, ?_, ?_⟩
  · rw [hp]; exact h1
  · rw [hp]; exact h2
  · rw [hp]; exact h3
  · rw [hp]; exact percentageOf_above _ h
  · intro hs; rw [hp, hs]; decide
  · intro hs; rw [hp, hs]; decide
  · intro hs; rw [hp, hs]; decide

/-- C6 amended, at two files of 512 MiB: the total is 1 GiB, the percentage is 10, in the
bar and in the text. -/
theorem C6_percentage_rounding_witness :
    (AppModule.updateStatistics mockEnv gibFiles).progressBar = 10 ∧
    (AppModule.updateStatistics mockEnv gibFiles).storagePercent
      = toString (AppModule.updateStatistics mockEnv gibFiles).progressBar ++ "% من 10GB" ∧
    (AppModule.updateStatistics mockEnv gibFiles).progressBar = halfUpPercent 1073741824 :=
  ⟨(C6_percentage_rounding mockEnv gibFiles (by decide)).2.2.2.2.2.2.1 (by decide),
    (C6_percentage_rounding mockEnv gibFiles (by decide)).1,
    (C6_percentage_rounding mockEnv gibFiles (by decide)).2.2.2.1
      (fun k hk => absurd hk (by
        have e : (List.map (fun f => f.size.getD 0) gibFiles).sum = 1073741824 := by decide
        rw [e, maxSize_eq]
        omega))⟩

/-! ## Claims on the storage clients -/

/-- C7: when `SUPABASE_URL` or `SUPABASE_KEY` is empty, `listFiles` issues no request and
returns the three literal mock records, with ids 1, 2, 3 in that order; their `createdAt`
(ISO dates, so the order of the strings is the order of the dates) is strictly descending;
every record has a size that is a natural number and a status `published` or `pending`. -/
theorem C7_unconfigured_list_is_mock (env : Env)
    (h : env.SUPABASE_URL = "" ∨ env.SUPABASE_KEY = "") :
    SupabaseModule.listFiles env = ([], SupabaseModule.getMockFileList) ∧
    SupabaseModule.getMockFileList.length = 3 ∧
    SupabaseModule.getMockFileList.map (fun r => r.id) = ["1", "2", "3"] ∧
    List.Pairwise (fun a b => b.createdAt < a.createdAt) SupabaseModule.getMockFileList ∧
    (∀ r ∈ SupabaseModule.getMockFileList,
      (∃ n : Nat, r.size = some n) ∧ (r.status = "published" ∨ r.status = "pending")) := by
  have hU : SupabaseModule.unconfigured env = true := by
    simp only [SupabaseModule.unconfigured, Bool.or_eq_true, beq_iff_eq]
    exact h
  refine ⟨?_, by decide, by decide, ?_, ?_⟩
  · simp [SupabaseModule.listFiles, SupabaseModule.listFilesTry, hU]
  · exact List.Pairwise.imp (fun h => String.lt_iff_toList_lt.mpr h)
      (show List.Pairwise (fun a b => b.createdAt.toList < a.createdAt.toList)
        SupabaseModule.getMockFileList from by decide)
  · intro r hr
    simp only [SupabaseModule.getMockFileList, List.mem_cons, List.mem_singleton,
      List.not_mem_nil, or_false] at hr
    rcases hr with rfl | rfl | rfl <;> exact ⟨⟨_, rfl⟩, by decide⟩

/-- C7, at the environment in which nothing is configured. -/
theorem C7_unconfigured_list_is_mock_witness :
    SupabaseModule.listFiles mockEnv = ([], SupabaseModule.getMockFileList) ∧
    SupabaseModule.getMockFileList.length = 3 ∧
    SupabaseModule.getMockFileList.map (fun r => r.id) = ["1", "2", "3"] ∧
    List.Pairwise (fun a b => b.createdAt < a.createdAt) SupabaseModule.getMockFileList ∧
    (∀ r ∈ SupabaseModule.getMockFileList,
      (∃ n : Nat, r.size = some n) ∧ (r.status = "published" ∨ r.status = "pending")) :=
  C7_unconfigured_list_is_mock mockEnv (Or.inl rfl)

/-- C8, refuted as stated: the mock result of the primary client carries no `fileId` at
all, so it is not `mock_` followed by a timestamp. -/
theorem C8_primary_mock_has_no_fileId :
    (SupabaseModule.uploadPDF mockEnv pdfFile).2.fileId = none ∧
    ¬ ∃ timestamp : Nat,
      (SupabaseModule.uploadPDF mockEnv pdfFile).2.fileId = some ("mock_" ++ toString timestamp) := by
  have h : (SupabaseModule.uploadPDF mockEnv pdfFile).2.fileId = none := by decide
  refine ⟨h, ?_⟩
  rintro ⟨timestamp, ht⟩
  rw [h] at ht
  exact absurd ht (by simp)

/-- C8, amended: for every file, an unconfigured primary client (`uploadPDF`) issues no
request and returns `success = true`, `isMock = true`, the name and size of the file and
the synthetic url `mock://files/<name>`, with no `fileId`; an unconfigured secondary client
(`uploadToDrive`) issues no request and returns `success = true`, `isMock = true`, the
`fileId` that is `mock_` followed by the reading of the clock, and a synthetic share link,
with no `url`. -/
theorem C8_mock_upload_results (env : Env) (file : File) (metadata : Metadata) :
    ((env.SUPABASE_URL = "" ∨ env.SUPABASE_KEY = "") →
      SupabaseModule.uploadPDF env file
        = ([], { success := true
                 name := some file.name
                 size := some file.size
                 url := some ("mock://files/" ++ file.name)
                 fileId := none
                 shareLink := none
                 isMock := some true
                 error := none })) ∧
    (env.DRIVE_API_ENDPOINT = "" →
      DriveModule.uploadToDrive env file metadata
        = ([], { success := true
                 name := none
                 size := none
                 url := none
                 fileId := some ("mock_" ++ toString (env.clock 0))
                 shareLink := some ("https://drive.google.com/file/d/mock_"
                   ++ toString (env.clock 1) ++ "/view")
                 isMock := some true
                 error := none })) := by
  constructor
  · intro h
    have hU : SupabaseModule.unconfigured env = true := by
      simp only [SupabaseModule.unconfigured, Bool.or_eq_true, beq_iff_eq]
      exact h
    simp [SupabaseModule.uploadPDF, SupabaseModule.uploadPDFTry, hU,
      SupabaseModule.mockUploadPDF]
  · intro h
    have hU : DriveModule.unconfigured env = true := by
      simp only [DriveModule.unconfigured, beq_iff_eq]
      exact h
    simp [DriveModule.uploadToDrive, DriveModule.uploadToDriveTry, hU,
      DriveModule.mockUploadToDrive]

/-- C8 amended, at the environment in which nothing is configured, whose clock reads
1762300800000 and then 1762300800001. -/
theorem C8_mock_upload_results_witness :
    SupabaseModule.uploadPDF mockEnv pdfFile
        = ([], { success := true
                 name := some "report.pdf"
                 size := some 209715200
                 url := some "mock://files/report.pdf"
                 isMock := some true }) ∧
    DriveModule.uploadToDrive mockEnv pdfFile ⟨"2025-11-05T00:00:00.000Z", none⟩
        = ([], { success := true
                 fileId := some ("mock_" ++ toString (1762300800000 : Nat))
                 shareLink := some ("https://drive.google.com/file/d/mock_"
                   ++ toString (1762300800001 : Nat) ++ "/view")
                 isMock := some true }) :=
  ⟨(C8_mock_upload_results mockEnv pdfFile ⟨"2025-11-05T00:00:00.000Z", none⟩).1 (Or.inl rfl),
    (C8_mock_upload_results mockEnv pdfFile ⟨"2025-11-05T00:00:00.000Z", none⟩).2 rfl⟩

/-- C9: for a configured primary client, `listFiles` issues one GET and returns: the
`objects` collection of the response unchanged when the response is in the success class
and the collection is present; the empty list when the response is in the success class
and its JSON object has no collection; the mock list when the status is not in the success
class or the request fails on the network.  Every error thrown in the `try` block (also a
body that cannot be read) is caught and answered with the mock list, so the call always
returns a list. -/
theorem C9_configured_list (env : Env)
    (hUrl : env.SUPABASE_URL ≠ "") (hKey : env.SUPABASE_KEY ≠ "") :
    (SupabaseModule.listFiles env).1 = [Event.fetch (SupabaseModule.listRequest env)] ∧
    (∀ statusText objects fileId shareLink,
      env.fetch (SupabaseModule.listRequest env)
          = .response true statusText (.object (some objects) fileId shareLink) →
        (SupabaseModule.listFiles env).2 = objects) ∧
    (∀ statusText fileId shareLink,
      env.fetch (SupabaseModule.listRequest env)
          = .response true statusText (.object none fileId shareLink) →
        (SupabaseModule.listFiles env).2 = []) ∧
    (∀ statusText body,
      env.fetch (SupabaseModule.listRequest env) = .response false statusText body →
        (SupabaseModule.listFiles env).2 = SupabaseModule.getMockFileList) ∧
    (∀ message,
      env.fetch (SupabaseModule.listRequest env) = .networkError message →
        (SupabaseModule.listFiles env).2 = SupabaseModule.getMockFileList) ∧
    (∀ message,
      (SupabaseModule.listFilesTry env).2 = .error message →
        (SupabaseModule.listFiles env).2 = SupabaseModule.getMockFileList) := by
  have hU : SupabaseModule.unconfigured env = false := by
    simp [SupabaseModule.unconfigured, hUrl, hKey]
  refine ⟨?_, ?_, ?_, ?_, ?_, ?_⟩
  · simp [SupabaseModule.listFiles, SupabaseModule.listFilesTry, hU]
  · intro statusText objects fileId shareLink h
    simp [SupabaseModule.listFiles, SupabaseModule.listFilesTry, hU, Env.fetchE, h,
      SupabaseModule.readObjects]
  · intro statusText fileId shareLink h
    simp [SupabaseModule.listFiles, SupabaseModule.listFilesTry, hU, Env.fetchE, h,
      SupabaseModule.readObjects]
  · intro statusText body h
    simp [SupabaseModule.listFiles, SupabaseModule.listFilesTry, hU, Env.fetchE, h]
  · intro message h
    simp [SupabaseModule.listFiles, SupabaseModule.listFilesTry, hU, Env.fetchE, h]
  · intro message h
    simp [SupabaseModule.listFiles, h]

/-- C9, at a configured client whose network is down: the GET is issued and the mock list
comes back. -/
theorem C9_configured_list_witness :
    (SupabaseModule.listFiles offlineEnv).1
        = [Event.fetch ⟨"GET", "https://project.supabase.co/storage/v1/object/list/admin-files"⟩] ∧
    (SupabaseModule.listFiles offlineEnv).2 = SupabaseModule.getMockFileList :=
  ⟨(C9_configured_list offlineEnv (by decide) (by decide)).1,
    (C9_configured_list offlineEnv (by decide) (by decide)).2.2.2.2.1 "Failed to fetch" rfl⟩

/-- C10: in configured mode, when the request of a wrapper fails on the network or comes
back with a status outside the success class, the wrapper returns a value: the uploads
return `success = false` with `error` (the reason) as the only populated property,
`generateShareLink` returns `null`, the two deletes return `false`; and a delete returns
`true` exactly when a response arrives that is in the success class. -/
theorem C10_failures_become_results (env : Env) (file : File) (metadata : Metadata)
    (id : String)
    (hUrl : env.SUPABASE_URL ≠ "") (hKey : env.SUPABASE_KEY ≠ "")
    (hDrive : env.DRIVE_API_ENDPOINT ≠ "") :
    (∀ message, env.fetch (SupabaseModule.uploadRequest env file) = .networkError message →
      (SupabaseModule.uploadPDF env file).2
        = { success := false, name := none, size := none, url := none, fileId := none,
            shareLink := none, isMock := none, error := some message }) ∧
    (∀ statusText body,
      env.fetch (SupabaseModule.uploadRequest env file) = .response false statusText body →
      (SupabaseModule.uploadPDF env file).2
        = { success := false, name := none, size := none, url := none, fileId := none,
            shareLink := none, isMock := none,
            error := some ("Upload failed: " ++ statusText) }) ∧
    (∀ message, env.fetch (DriveModule.uploadRequest env) = .networkError message →
      (DriveModule.uploadToDrive env file metadata).2
        = { success := false, name := none, size := none, url := none, fileId := none,
            shareLink := none, isMock := none, error := some message }) ∧
    (∀ statusText body,
      env.fetch (DriveModule.uploadRequest env) = .response false statusText body →
      (DriveModule.uploadToDrive env file metadata).2
        = { success := false, name := none, size := none, url := none, fileId := none,
            shareLink := none, isMock := none,
            error := some ("Drive upload failed: " ++ statusText) }) ∧
    ((∀ message, env.fetch (DriveModule.shareRequest env id) = .networkError message →
        (DriveModule.generateShareLink env id).2 = .null) ∧
      (∀ statusText body,
        env.fetch (DriveModule.shareRequest env id) = .response false statusText body →
        (DriveModule.generateShareLink env id).2 = .null)) ∧
    ((SupabaseModule.deleteFile env id).2 = true ↔
      ∃ statusText body,
        env.fetch (SupabaseModule.deleteRequest env id) = .response true statusText body) ∧
    ((DriveModule.deleteFromDrive env id).2 = true ↔
      ∃ statusText body,
        env.fetch (DriveModule.deleteRequest env id) = .response true statusText body) := by
  have hS : SupabaseModule.unconfigured env = false := by
    simp [SupabaseModule.unconfigured, hUrl, hKey]
  have hD : DriveModule.unconfigured env = false := by
    simp [DriveModule.unconfigured, hDrive]
  refine ⟨?_, ?_, ?_, ?_, ⟨?_, ?_⟩, ?_, ?_⟩
  · intro message h
    simp [SupabaseModule.uploadPDF, SupabaseModule.uploadPDFTry, hS, Env.fetchE, h]
  · intro statusText body h
    simp [SupabaseModule.uploadPDF, SupabaseModule.uploadPDFTry, hS, Env.fetchE, h]
  · intro message h
    simp [DriveModule.uploadToDrive, DriveModule.uploadToDriveTry, hD, Env.fetchE, h]
  · intro statusText body h
    simp [DriveModule.uploadToDrive, DriveModule.uploadToDriveTry, hD, Env.fetchE, h]
  · intro message h
    simp [DriveModule.generateShareLink, DriveModule.generateShareLinkTry, hD, Env.fetchE, h]
  · intro statusText body h
    simp [DriveModule.generateShareLink, DriveModule.generateShareLinkTry, hD, Env.fetchE, h]
  · simp only [SupabaseModule.deleteFile, SupabaseModule.deleteFileTry, hS, Env.fetchE]
    cases hF : env.fetch (SupabaseModule.deleteRequest env id) with
    | networkError message => simp
    | response ok statusText body => cases ok <;> simp
  · simp only [DriveModule.deleteFromDrive, DriveModule.deleteFromDriveTry, hD, Env.fetchE]
    cases hF : env.fetch (DriveModule.deleteRequest env id) with
    | networkError message => simp
    | response ok statusText body => cases ok <;> simp

/-- C10, at configured clients whose network is down. -/
theorem C10_failures_become_results_witness :
    (SupabaseModule.uploadPDF offlineEnv pdfFile).2
        = { success := false, error := some "Failed to fetch" } ∧
    (DriveModule.uploadToDrive offlineEnv pdfFile ⟨"2025-11-05T00:00:00.000Z", none⟩).2
        = { success := false, error := some "Failed to fetch" } ∧
    (DriveModule.generateShareLink offlineEnv "abc").2 = .null ∧
    ¬ (SupabaseModule.deleteFile offlineEnv "abc").2 = true ∧
    ¬ (DriveModule.deleteFromDrive offlineEnv "abc").2 = true :=
  ⟨(C10_failures_become_results offlineEnv pdfFile ⟨"2025-11-05T00:00:00.000Z", none⟩ "abc"
      (by decide) (by decide) (by decide)).1 "Failed to fetch" rfl,
    (C10_failures_become_results offlineEnv pdfFile ⟨"2025-11-05T00:00:00.000Z", none⟩ "abc"
      (by decide) (by decide) (by decide)).2.2.1 "Failed to fetch" rfl,
    (C10_failures_become_results offlineEnv pdfFile ⟨"2025-11-05T00:00:00.000Z", none⟩ "abc"
      (by decide) (by decide) (by decide)).2.2.2.2.1.1 "Failed to fetch" rfl,
    fun h => by
      obtain ⟨statusText, body, hF⟩ :=
        (C10_failures_become_results offlineEnv pdfFile ⟨"2025-11-05T00:00:00.000Z", none⟩ "abc"
          (by decide) (by decide) (by decide)).2.2.2.2.2.1.mp h
      exact absurd hF (by simp [offlineEnv, mockEnv]),
    fun h => by
      obtain ⟨statusText, body, hF⟩ :=
        (C10_failures_become_results offlineEnv pdfFile ⟨"2025-11-05T00:00:00.000Z", none⟩ "abc"
          (by decide) (by decide) (by decide)).2.2.2.2.2.2.mp h
      exact absurd hF (by simp [offlineEnv, mockEnv])⟩

/-! ## Claims on the size formatting -/

/-! ### Rounding is monotone and exact on doubles -/

/-- Rounding is above every integer below the quotient. -/
theorem le_roundHalfEven (n d K : Nat) (hd : 0 < d) (h : K * d ≤ n) : K ≤ roundHalfEven n d := by
  have hq : K ≤ n / d := (Nat.le_div_iff_mul_le hd).mpr h
  unfold roundHalfEven
  simp only
  split
  · exact hq
  · split
    · omega
    · split <;> omega

/-- Rounding is below every integer above the quotient. -/
theorem roundHalfEven_le (n d K : Nat) (hd : 0 < d) (h : n ≤ K * d) : roundHalfEven n d ≤ K := by
  have h1 := Nat.div_add_mod n d
  have h2 := Nat.mod_lt n hd
  have hb := (roundHalfEven_bounds n d hd).1
  by_contra hc
  have hK : K + 1 ≤ roundHalfEven n d := by omega
  have h3 : d * (K + 1) ≤ d * roundHalfEven n d := Nat.mul_le_mul_left _ hK
  have h4 : d * (K + 1) = K * d + d := by ring
  omega

/-- A quotient that is an integer is left unchanged. -/
theorem roundHalfEven_mul (k d : Nat) (hd : 0 < d) : roundHalfEven (k * d) d = k :=
  le_antisymm (roundHalfEven_le _ _ _ hd le_rfl) (le_roundHalfEven _ _ _ hd le_rfl)

/-- At a tie the rounded value is even. -/
theorem roundHalfEven_tie (n d : Nat) (hd : 0 < d)
    (h : 2 * (d * roundHalfEven n d) = 2 * n + d ∨ 2 * n = 2 * (d * roundHalfEven n d) + d) :
    roundHalfEven n d % 2 = 0 := by
  have h1 := Nat.div_add_mod n d
  have h2 := Nat.mod_lt n hd
  revert h
  unfold roundHalfEven
  simp only
  generalize n / d = q at *
  generalize n % d = r at *
  split
  · intro h; rcases h with h | h <;> omega
  · split
    · rw [Nat.mul_add]; intro h; rcases h with h | h <;> omega
    · split
      · intro _; assumption
      · intro _; omega

/-- Rounding is monotone in the quotient. -/
theorem roundHalfEven_mono (n d n' d' : Nat) (hd : 0 < d) (hd' : 0 < d')
    (h : n * d' ≤ n' * d) : roundHalfEven n d ≤ roundHalfEven n' d' := by
  by_contra hc
  have hb := roundHalfEven_bounds n d hd
  have hb' := roundHalfEven_bounds n' d' hd'
  have ht := roundHalfEven_tie n d hd
  have ht' := roundHalfEven_tie n' d' hd'
  generalize roundHalfEven n d = m at *
  generalize roundHalfEven n' d' = m' at *
  have hm : m' + 1 ≤ m := by omega
  have hdq : (0 : ℚ) < d := by exact_mod_cast hd
  have hdq' : (0 : ℚ) < d' := by exact_mod_cast hd'
  have h1 : (2 : ℚ) * (d * m) ≤ 2 * n + d := by exact_mod_cast hb.1
  have h2 : (2 : ℚ) * n' ≤ 2 * (d' * m') + d' := by exact_mod_cast hb'.2
  have h3 : (n : ℚ) * d' ≤ n' * d := by exact_mod_cast h
  have h4 : (m' : ℚ) + 1 ≤ m := by exact_mod_cast hm
  -- m - 1/2 ≤ n/d ≤ n'/d' ≤ m' + 1/2 ≤ m - 1/2
  have e1 : (2 : ℚ) * (d * m) * d' ≤ (2 * n + d) * d' := mul_le_mul_of_nonneg_right h1 hdq'.le
  have e2 : (2 : ℚ) * n' * d ≤ (2 * (d' * m') + d') * d := mul_le_mul_of_nonneg_right h2 hdq.le
  have e3 : (d : ℚ) * d' * (m' + 1) ≤ d * d' * m :=
    mul_le_mul_of_nonneg_left h4 (by positivity)
  have k1 : (2 : ℚ) * (d * m) * d' = (2 * n + d) * d' := le_antisymm e1 (by linarith)
  have k2 : (2 : ℚ) * n' * d = (2 * (d' * m') + d') * d := le_antisymm e2 (by linarith)
  have k3 : (d : ℚ) * d' * (m' + 1) = d * d' * m := le_antisymm e3 (by linarith)
  have j1 : (2 : ℚ) * (d * m) = 2 * n + d := mul_right_cancel₀ hdq'.ne' k1
  have j2 : (2 : ℚ) * n' = 2 * (d' * m') + d' := mul_right_cancel₀ hdq.ne' k2
  have j3 : (m' : ℚ) + 1 = m := mul_left_cancel₀ (by positivity) k3
  have i1 : 2 * (d * m) = 2 * n + d := by exact_mod_cast j1
  have i2 : 2 * n' = 2 * (d' * m') + d' := by exact_mod_cast j2
  have i3 : m' + 1 = m := by exact_mod_cast j3
  have p1 := ht (Or.inl i1)
  have p2 := ht' (Or.inr i2)
  clear i1 i2 hb hb' ht ht' h
  omega

theorem two_zpow_split (e : ℤ) : (2 : ℚ) ^ e.toNat / 2 ^ (-e).toNat = 2 ^ e := by
  rcases le_total 0 e with h | h
  · obtain ⟨n, rfl⟩ := Int.eq_ofNat_of_zero_le h
    have h2 : (-(n : ℤ)).toNat = 0 := by omega
    simp [h2]
  · obtain ⟨n, hn⟩ := Int.eq_ofNat_of_zero_le (neg_nonneg.mpr h)
    have he : e = -(n : ℤ) := by omega
    subst he
    have h1 : (-(n : ℤ)).toNat = 0 := by omega
    simp [h1, zpow_neg]

/-- The shape of a rounded quotient: significand `m` between `2 ^ 52` and `2 ^ 53`, the
nearest integer to the exact quotient scaled by `2 ^ (-e)`. -/
theorem fl_form (p q : Nat) (hp : 1 ≤ p) (hq : 1 ≤ q) (hb : ilog2 q ≤ 1021) :
    ∃ N D : ℕ, 0 < D ∧ (N : ℚ) / D = ((p : ℚ) / q) / 2 ^ (flExp p q) ∧
      2 ^ 52 * D ≤ N ∧ N < 2 ^ 53 * D ∧
      (fl p q).toRat = (roundHalfEven N D : ℚ) * 2 ^ (flExp p q) := by
  refine ⟨p * 2 ^ (-(flExp p q)).toNat, q * 2 ^ (flExp p q).toNat, by positivity, ?_,
    flExp_window p q hp hq hb, flExp_window_upper p q hp hq hb, ?_⟩
  · rw [← two_zpow_split]
    have hq0 : (q : ℚ) ≠ 0 := by positivity
    push_cast
    field_simp
  · have hp0 : p ≠ 0 := by omega
    rw [← two_zpow_split]
    unfold fl Dbl.toRat
    simp only [hp0, if_false]
    push_cast
    ring

theorem fl_zero (q : Nat) : (fl 0 q).toRat = 0 := by
  simp [fl, Dbl.toRat]

theorem fl_nonneg (p q : Nat) : 0 ≤ (fl p q).toRat := by
  unfold Dbl.toRat
  positivity

/-- Rounding to the nearest double is monotone. -/
theorem fl_mono (p q p' q' : Nat) (hq : 1 ≤ q) (hq' : 1 ≤ q')
    (hb : ilog2 q ≤ 1021) (hb' : ilog2 q' ≤ 1021)
    (h : (p : ℚ) / q ≤ (p' : ℚ) / q') : (fl p q).toRat ≤ (fl p' q').toRat := by
  rcases Nat.eq_zero_or_pos p with hp0 | hp
  · rw [hp0, fl_zero]; exact fl_nonneg _ _
  have hqq : (0 : ℚ) < q := by exact_mod_cast hq
  have hqq' : (0 : ℚ) < q' := by exact_mod_cast hq'
  have hx : (0 : ℚ) < (p : ℚ) / q := by
    have : (0 : ℚ) < p := by exact_mod_cast hp
    positivity
  have hp' : 1 ≤ p' := by
    by_contra hc
    have h0 : p' = 0 := by omega
    rw [h0] at h
    simp at h
    linarith
  obtain ⟨N, D, hD, hND, hlo, hhi, hv⟩ := fl_form p q hp hq hb
  obtain ⟨N', D', hD', hND', hlo', hhi', hv'⟩ := fl_form p' q' hp' hq' hb'
  rw [hv, hv']
  generalize flExp p q = e at *
  generalize flExp p' q' = e' at *
  have hE : (0 : ℚ) < 2 ^ e := by positivity
  have hE' : (0 : ℚ) < 2 ^ e' := by positivity
  have hDq : (0 : ℚ) < D := by exact_mod_cast hD
  have hDq' : (0 : ℚ) < D' := by exact_mod_cast hD'
  have hloq : (2 : ℚ) ^ 52 * D ≤ N := by exact_mod_cast hlo
  have hhiq : (N : ℚ) < 2 ^ 53 * D := by exact_mod_cast hhi
  have hloq' : (2 : ℚ) ^ 52 * D' ≤ N' := by exact_mod_cast hlo'
  have hhiq' : (N' : ℚ) < 2 ^ 53 * D' := by exact_mod_cast hhi'
  -- the exact quotients sit in their windows
  have w1 : (2 : ℚ) ^ 52 * 2 ^ e ≤ (p : ℚ) / q := by
    have : (2 : ℚ) ^ 52 ≤ (N : ℚ) / D := by rw [le_div_iff₀ hDq]; exact hloq
    rw [hND, le_div_iff₀ hE] at this
    exact this
  have w2' : (p' : ℚ) / q' < 2 ^ 53 * 2 ^ e' := by
    have : (N' : ℚ) / D' < 2 ^ 53 := by rw [div_lt_iff₀ hDq']; exact hhiq'
    rw [hND', div_lt_iff₀ hE'] at this
    exact this
  have hm : (roundHalfEven N D : ℚ) ≤ 2 ^ 53 := by
    have := roundHalfEven_le N D (2 ^ 53) hD hhi.le
    exact_mod_cast this
  have hm' : (2 : ℚ) ^ 52 ≤ (roundHalfEven N' D' : ℚ) := by
    have := le_roundHalfEven N' D' (2 ^ 52) hD' hlo'
    exact_mod_cast this
  rcases lt_trichotomy e e' with hlt | heq | hgt
  · have hstep : (2 : ℚ) ^ 53 * 2 ^ e ≤ 2 ^ 52 * 2 ^ e' := by
      have h1 : (2 : ℚ) ^ (e + 1) ≤ 2 ^ e' := zpow_le_zpow_right₀ (by norm_num) (by omega)
      rw [zpow_add_one₀ (by norm_num : (2 : ℚ) ≠ 0)] at h1
      have : (2 : ℚ) ^ 53 * 2 ^ e = 2 ^ 52 * (2 ^ e * 2) := by ring
      rw [this]
      exact mul_le_mul_of_nonneg_left h1 (by positivity)
    calc (roundHalfEven N D : ℚ) * 2 ^ e ≤ 2 ^ 53 * 2 ^ e :=
          mul_le_mul_of_nonneg_right hm hE.le
      _ ≤ 2 ^ 52 * 2 ^ e' := hstep
      _ ≤ (roundHalfEven N' D' : ℚ) * 2 ^ e' := mul_le_mul_of_nonneg_right hm' hE'.le
  · subst heq
    have hq2 : (N : ℚ) / D ≤ (N' : ℚ) / D' := by
      rw [hND, hND']
      exact div_le_div_of_nonneg_right h hE.le
    rw [div_le_div_iff₀ hDq hDq'] at hq2
    have hn : N * D' ≤ N' * D := by exact_mod_cast hq2
    have := roundHalfEven_mono N D N' D' hD hD' hn
    exact mul_le_mul_of_nonneg_right (by exact_mod_cast this) hE.le
  · exfalso
    have hstep : (2 : ℚ) ^ 53 * 2 ^ e' ≤ 2 ^ 52 * 2 ^ e := by
      have h1 : (2 : ℚ) ^ (e' + 1) ≤ 2 ^ e := zpow_le_zpow_right₀ (by norm_num) (by omega)
      rw [zpow_add_one₀ (by norm_num : (2 : ℚ) ≠ 0)] at h1
      have : (2 : ℚ) ^ 53 * 2 ^ e' = 2 ^ 52 * (2 ^ e' * 2) := by ring
      rw [this]
      exact mul_le_mul_of_nonneg_left h1 (by positivity)
    linarith

/-- A quotient that is a double already (`n / 2 ^ j` with `n` below `2 ^ 53`) is left
unchanged by the rounding. -/
theorem fl_exact (p q n j : Nat) (hq : 1 ≤ q) (hb : ilog2 q ≤ 1021) (hn1 : 1 ≤ n)
    (hn2 : n < 2 ^ 53) (h : p * 2 ^ j = n * q) : (fl p q).toRat = (n : ℚ) / 2 ^ j := by
  have hp : 1 ≤ p := by
    by_contra hc
    have h0 : p = 0 := by omega
    rw [h0, Nat.zero_mul] at h
    have : 0 < n * q := Nat.mul_pos hn1 hq
    omega
  have hqq : (0 : ℚ) < q := by exact_mod_cast hq
  have hx : (p : ℚ) / q = (n : ℚ) / 2 ^ j := by
    rw [div_eq_div_iff hqq.ne' (by positivity)]
    exact_mod_cast h
  obtain ⟨N, D, hD, hND, hlo, _, hv⟩ := fl_form p q hp hq hb
  rw [hv]
  rw [hx] at hND
  generalize flExp p q = e at *
  have hDq : (0 : ℚ) < D := by exact_mod_cast hD
  have hnq : (0 : ℚ) < n := by exact_mod_cast hn1
  -- N / D = n * 2 ^ t with t = -(j + e)
  have hND2 : (N : ℚ) / D = n * 2 ^ (-((j : ℤ) + e)) := by
    rw [hND, neg_add, zpow_add₀ (by norm_num : (2 : ℚ) ≠ 0), zpow_neg, zpow_neg, zpow_natCast]
    field_simp
  have ht : 0 ≤ -((j : ℤ) + e) := by
    by_contra hc
    have hle : -((j : ℤ) + e) ≤ -1 := by omega
    have h1 : (2 : ℚ) ^ (-((j : ℤ) + e)) ≤ 2 ^ (-1 : ℤ) := zpow_le_zpow_right₀ (by norm_num) hle
    rw [show (2 : ℚ) ^ (-1 : ℤ) = 1 / 2 by norm_num] at h1
    have h2 : (2 : ℚ) ^ 52 ≤ (N : ℚ) / D := by
      rw [le_div_iff₀ hDq]; exact_mod_cast hlo
    have h3 : (n : ℚ) < 2 ^ 53 := by exact_mod_cast hn2
    rw [hND2] at h2
    have h4 : (n : ℚ) * 2 ^ (-((j : ℤ) + e)) ≤ n * (1 / 2) :=
      mul_le_mul_of_nonneg_left h1 hnq.le
    generalize (n : ℚ) * 2 ^ (-((j : ℤ) + e)) = y at *
    linarith
  obtain ⟨c, hc⟩ := Int.eq_ofNat_of_zero_le ht
  rw [hc, zpow_natCast, div_eq_iff hDq.ne'] at hND2
  have hN : N = n * 2 ^ c * D := by exact_mod_cast hND2
  rw [hN, roundHalfEven_mul _ _ hD]
  have he : e = -(c : ℤ) - j := by omega
  rw [he]
  push_cast
  rw [sub_eq_add_neg, zpow_add₀ (by norm_num : (2 : ℚ) ≠ 0), zpow_neg, zpow_neg, zpow_natCast,
    zpow_natCast]
  field_simp
  ring

namespace UIModule

theorem mathFloor_eq_floor (x : Dbl) : mathFloor x = ⌊x.toRat⌋₊ := by
  unfold mathFloor Dbl.toRat
  rw [Nat.floor_div_eq_div]

theorem mathFloor_mono (x y : Dbl) (h : x.toRat ≤ y.toRat) : mathFloor x ≤ mathFloor y := by
  rw [mathFloor_eq_floor, mathFloor_eq_floor]
  exact Nat.floor_mono h

end UIModule

/-! ### The tenths -/

namespace UIModule

theorem mathRound_eq_floor (x : Dbl) (hd : 0 < x.den) :
    mathRound x = ⌊x.toRat + 1 / 2⌋₊ := by
  have hdq : (0 : ℚ) < x.den := by exact_mod_cast hd
  have e : x.toRat + 1 / 2 = ((2 * x.num + x.den : ℕ) : ℚ) / ((2 * x.den : ℕ) : ℚ) := by
    unfold Dbl.toRat
    push_cast
    field_simp
    ring
  rw [e, Nat.floor_div_eq_div]
  rfl

/-- The number of tenths: `bytes / 1024 ^ i` and its product with 10 are exact in doubles,
so `Math.round` sees the exact value `10 * bytes / 1024 ^ i`. -/
theorem tenths_eq (bytes i : Nat) (hb : 1 ≤ bytes) (hb2 : 10 * bytes < 2 ^ 53) (hi : i ≤ 4) :
    tenths bytes i = (2 * (10 * bytes) + 1024 ^ i) / (2 * 1024 ^ i) := by
  unfold tenths jsMul jsDiv Dbl.ofNat
  simp only
  have hpow : (1024 : ℕ) ^ i = 2 ^ (10 * i) := by
    rw [pow_mul]; norm_num
  have hq1 : 1 ≤ 1 * 1024 ^ i := by
    have : 0 < 1024 ^ i := by positivity
    omega
  have hlt : 1 * 1024 ^ i < 2 ^ 41 := by
    rw [Nat.one_mul, hpow]
    exact Nat.pow_lt_pow_right (by norm_num) (by omega)
  have hlog1 : ilog2 (1 * 1024 ^ i) < 41 := ilog2_lt_of_lt_pow _ 41 hq1 hlt
  have e1 := fl_exact (bytes * 1) (1 * 1024 ^ i) bytes (10 * i) hq1 (by omega) hb (by omega)
    (by rw [hpow]; ring)
  have hden1 := fl_den_pos (bytes * 1) (1 * 1024 ^ i)
  have hlog2 := fl_den_ilog2 (bytes * 1) (1 * 1024 ^ i)
  generalize fl (bytes * 1) (1 * 1024 ^ i) = y at *
  have hyd : (0 : ℚ) < y.den := by exact_mod_cast hden1
  have hcross : y.num * 2 ^ (10 * i) = bytes * y.den := by
    unfold Dbl.toRat at e1
    rw [div_eq_div_iff hyd.ne' (by positivity)] at e1
    exact_mod_cast e1
  have e2 := fl_exact (y.num * 10) (y.den * 1) (10 * bytes) (10 * i) (by omega)
    (by rw [Nat.mul_one]; omega) (by omega) hb2
    (by calc y.num * 10 * 2 ^ (10 * i) = 10 * (y.num * 2 ^ (10 * i)) := by ring
          _ = 10 * (bytes * y.den) := by rw [hcross]
          _ = 10 * bytes * (y.den * 1) := by ring)
  have hden2 := fl_den_pos (y.num * 10) (y.den * 1)
  rw [mathRound_eq_floor _ hden2, e2]
  have e3 : ((10 * bytes : ℕ) : ℚ) / 2 ^ (10 * i) + 1 / 2
      = ((2 * (10 * bytes) + 1024 ^ i : ℕ) : ℚ) / ((2 * 1024 ^ i : ℕ) : ℚ) := by
    rw [hpow]
    push_cast
    field_simp
    ring
  rw [e3, Nat.floor_div_eq_div]

end UIModule

/-! ### The natural logarithm next to the powers of 1024 -/

/-- The natural logarithm of 2 to nineteen digits, from 64 terms of the series of
`log (1 - 1/2)`. -/
theorem log_two_near :
    |Real.log 2 - 818323753292969962226 / 2 ^ 70| ≤ 1 / 2 ^ 63 := by
  have t : |(2⁻¹ : ℝ)| = 2⁻¹ := by rw [abs_of_pos]; norm_num
  have z := Real.abs_log_sub_add_sum_range_le (show |(2⁻¹ : ℝ)| < 1 by rw [t]; norm_num) 64
  rw [t] at z
  norm_num1 at z
  rw [one_div (2 : ℝ), Real.log_inv, ← sub_eq_add_neg, abs_sub_comm] at z
  rw [abs_le] at z ⊢
  constructor
  · linarith [z.1]
  · linarith [z.2]

theorem log_two_pow (j : Nat) : Real.log ((2 : ℝ) ^ j) = j * Real.log 2 := by
  rw [Real.log_pow]

theorem log_1024 : Real.log 1024 = 10 * Real.log 2 := by
  have : (1024 : ℝ) = 2 ^ 10 := by norm_num
  rw [this, Real.log_pow]
  norm_num

theorem log_1024_bounds : 6 < Real.log 1024 ∧ Real.log 1024 < 7 := by
  rw [log_1024]
  have h1 := Real.log_two_gt_d9
  have h2 := Real.log_two_lt_d9
  constructor <;> linarith

/-- The logarithm of a size, split at a power of 1024. -/
theorem log_split (b K : Nat) (hb : 1 ≤ b) :
    Real.log (b : ℝ) = K * Real.log 1024 + Real.log ((b : ℝ) / 1024 ^ K) := by
  have hb0 : (b : ℝ) ≠ 0 := by
    have : (0 : ℝ) < b := by exact_mod_cast hb
    exact ne_of_gt this
  rw [Real.log_div hb0 (by positivity), Real.log_pow]
  ring

/-- Below a power of 1024 the logarithm stays away from that of the power. -/
theorem log_below_pow (b K : Nat) (hb : 1 ≤ b) (hlt : b < 1024 ^ K) :
    Real.log (b : ℝ) ≤ K * Real.log 1024 - 1 / 1024 ^ K := by
  rw [log_split b K hb]
  have hbpos : (0 : ℝ) < b := by exact_mod_cast hb
  have hP : (0 : ℝ) < 1024 ^ K := by positivity
  have hy : (0 : ℝ) < (b : ℝ) / 1024 ^ K := by positivity
  have h1 := Real.log_le_sub_one_of_pos hy
  have h2 : (b : ℝ) + 1 ≤ 1024 ^ K := by exact_mod_cast hlt
  have h3 : (b : ℝ) / 1024 ^ K ≤ 1 - 1 / 1024 ^ K := by
    rw [div_le_iff₀ hP, sub_mul, one_mul, div_mul_cancel₀ _ (ne_of_gt hP)]
    linarith
  linarith

/-- Above a power of 1024 the logarithm stays away from that of the power. -/
theorem log_above_pow (b K : Nat) (hgt : 1024 ^ K < b) :
    K * Real.log 1024 + 1 / (2 * 1024 ^ K) ≤ Real.log (b : ℝ) := by
  have hb : 1 ≤ b := by
    have : 0 < 1024 ^ K := by positivity
    omega
  rw [log_split b K hb]
  have hbpos : (0 : ℝ) < b := by exact_mod_cast hb
  have hP : (1 : ℝ) ≤ 1024 ^ K := one_le_pow₀ (by norm_num)
  have hP0 : (0 : ℝ) < 1024 ^ K := by positivity
  have hy : (0 : ℝ) < (b : ℝ) / 1024 ^ K := by positivity
  have h1 := Real.one_sub_inv_le_log_of_pos hy
  have h2 : (1024 : ℝ) ^ K + 1 ≤ b := by exact_mod_cast hgt
  have h3 : ((b : ℝ) / 1024 ^ K)⁻¹ ≤ 1 - 1 / (2 * 1024 ^ K) := by
    rw [inv_div, div_le_iff₀ hbpos, sub_mul, one_mul]
    have h4 : 1 / (2 * (1024 : ℝ) ^ K) * b ≤ b - 1024 ^ K := by
      rw [div_mul_eq_mul_div, one_mul, div_le_iff₀ (by positivity)]
      nlinarith
    linarith
  linarith

/-! ### The unit index -/

namespace UIModule

theorem toRat_cast (x : Dbl) : ((x.toRat : ℚ) : ℝ) = (x.num : ℝ) / (x.den : ℝ) := by
  unfold Dbl.toRat
  push_cast
  rfl

/-- The accuracy of `LogAccurate` as two inequalities. -/
theorem logAccurate_bounds (mathLog : Nat → Dbl) (x : Nat) (h : LogAccurate mathLog x) :
    Real.log (x : ℝ) * (1 - 1 / 2 ^ 48) ≤ (((mathLog x).toRat : ℚ) : ℝ) ∧
    (((mathLog x).toRat : ℚ) : ℝ) ≤ Real.log (x : ℝ) * (1 + 1 / 2 ^ 48) := by
  have h3 := h.2.2
  rw [abs_le] at h3
  constructor
  · linarith [h3.1]
  · linarith [h3.2]

/-- An accurate logarithm of 1024 lies between 6 and 8. -/
theorem logAccurate_1024 (mathLog : Nat → Dbl) (hk : LogAccurate mathLog 1024) :
    Real.log 1024 * (1 - 1 / 2 ^ 48) ≤ (((mathLog 1024).toRat : ℚ) : ℝ) ∧
    (((mathLog 1024).toRat : ℚ) : ℝ) ≤ Real.log 1024 * (1 + 1 / 2 ^ 48) ∧
    (6 : ℝ) < (((mathLog 1024).toRat : ℚ) : ℝ) ∧ (((mathLog 1024).toRat : ℚ) : ℝ) < 8 := by
  have h := logAccurate_bounds mathLog 1024 hk
  have e : ((1024 : ℕ) : ℝ) = 1024 := by norm_num
  rw [e] at h
  obtain ⟨l1, l2⟩ := log_1024_bounds
  refine ⟨h.1, h.2, ?_, ?_⟩
  · have : (6 : ℝ) < Real.log 1024 * (1 - 1 / 2 ^ 48) := by
      rw [log_1024] at l1 ⊢
      have := Real.log_two_gt_d9
      norm_num
      linarith
    linarith [h.1]
  · have : Real.log 1024 * (1 + 1 / 2 ^ 48) < 8 := by
      norm_num
      linarith
    linarith [h.2]

/-- The division `Math.log(bytes) / Math.log(k)` stays in the range of the doubles. -/
theorem quotient_ilog2 (mathLog : Nat → Dbl) (bytes : Nat)
    (hk : LogAccurate mathLog 1024) (hb : LogAccurate mathLog bytes) :
    1 ≤ (mathLog 1024).num ∧
    1 ≤ (mathLog bytes).den * (mathLog 1024).num ∧
    ilog2 ((mathLog bytes).den * (mathLog 1024).num) ≤ 1021 := by
  obtain ⟨_, _, c6, c8⟩ := logAccurate_1024 mathLog hk
  rw [toRat_cast] at c6 c8
  have hd : (0 : ℝ) < (mathLog 1024).den := by exact_mod_cast hk.1
  have hnum : 1 ≤ (mathLog 1024).num := by
    rcases Nat.eq_zero_or_pos (mathLog 1024).num with h0 | h0
    · rw [h0] at c6
      norm_num at c6
    · exact h0
  have hnum8 : (mathLog 1024).num < 8 * (mathLog 1024).den := by
    rw [div_lt_iff₀ hd] at c8
    exact_mod_cast c8
  have hq : 1 ≤ (mathLog bytes).den * (mathLog 1024).num := Nat.mul_pos hb.1 hnum
  refine ⟨hnum, hq, ?_⟩
  have hlt : (mathLog bytes).den * (mathLog 1024).num < 2 ^ 1022 := by
    calc (mathLog bytes).den * (mathLog 1024).num
        ≤ 2 ^ 256 * (8 * 2 ^ 256) :=
          Nat.mul_le_mul hb.2.1 (le_trans (Nat.le_of_lt hnum8) (Nat.mul_le_mul_left 8 hk.2.1))
      _ < 2 ^ 1022 := by norm_num
  have := ilog2_lt_of_lt_pow _ 1022 hq hlt
  omega

/-- The quotient of the two logarithms as a fraction of the numerators and denominators. -/
theorem quotient_cast (mathLog : Nat → Dbl) (bytes : Nat)
    (hk : LogAccurate mathLog 1024) (hb : LogAccurate mathLog bytes) :
    ((((mathLog bytes).num * (mathLog 1024).den : ℕ) : ℚ)
        / (((mathLog bytes).den * (mathLog 1024).num : ℕ) : ℚ) : ℝ)
      = (((mathLog bytes).toRat : ℚ) : ℝ) / (((mathLog 1024).toRat : ℚ) : ℝ) := by
  obtain ⟨hnum, _, _⟩ := quotient_ilog2 mathLog bytes hk hb
  have d1 : (0 : ℝ) < (mathLog bytes).den := by exact_mod_cast hb.1
  have d2 : (0 : ℝ) < (mathLog 1024).den := by exact_mod_cast hk.1
  have d3 : (0 : ℝ) < (mathLog 1024).num := by exact_mod_cast hnum
  rw [toRat_cast, toRat_cast]
  push_cast
  field_simp

/-- The unit index is at least `K` when the engine's logarithm of the size is at least `K`
times its logarithm of 1024. -/
theorem index_ge_of (mathLog : Nat → Dbl) (bytes K : Nat)
    (hk : LogAccurate mathLog 1024) (hb : LogAccurate mathLog bytes) (hK : K < 2 ^ 53)
    (h : (K : ℝ) * (((mathLog 1024).toRat : ℚ) : ℝ) ≤ (((mathLog bytes).toRat : ℚ) : ℝ)) :
    K ≤ unitIndex mathLog bytes := by
  rcases Nat.eq_zero_or_pos K with h0 | hK1
  · omega
  obtain ⟨hnum, hq, hil⟩ := quotient_ilog2 mathLog bytes hk hb
  obtain ⟨_, _, c6, _⟩ := logAccurate_1024 mathLog hk
  unfold unitIndex jsDiv
  rw [mathFloor_eq_floor]
  apply Nat.le_floor
  have e := fl_exact K 1 K 0 (le_refl 1) (by rw [ilog2_one]; omega) hK1 hK (by ring)
  have m := fl_mono K 1 ((mathLog bytes).num * (mathLog 1024).den)
    ((mathLog bytes).den * (mathLog 1024).num) (le_refl 1) hq (by rw [ilog2_one]; omega) hil
    (by
      have hr := quotient_cast mathLog bytes hk hb
      have : ((K : ℚ) / ((1 : ℕ) : ℚ) : ℝ)
          ≤ ((((mathLog bytes).num * (mathLog 1024).den : ℕ) : ℚ)
              / (((mathLog bytes).den * (mathLog 1024).num : ℕ) : ℚ) : ℝ) := by
        rw [hr, le_div_iff₀ (by linarith)]
        push_cast
        linarith
      exact_mod_cast this)
  rw [e] at m
  simpa using m

/-- The unit index is below `K` when the engine's logarithm of the size is at most
`K - 2 ^ (-50)` times its logarithm of 1024. -/
theorem index_lt_of (mathLog : Nat → Dbl) (bytes K : Nat)
    (hk : LogAccurate mathLog 1024) (hb : LogAccurate mathLog bytes) (hK1 : 1 ≤ K) (hK : K ≤ 7)
    (h : (((mathLog bytes).toRat : ℚ) : ℝ)
      ≤ ((K : ℝ) - 1 / 2 ^ 50) * (((mathLog 1024).toRat : ℚ) : ℝ)) :
    unitIndex mathLog bytes < K := by
  obtain ⟨hnum, hq, hil⟩ := quotient_ilog2 mathLog bytes hk hb
  obtain ⟨_, _, c6, _⟩ := logAccurate_1024 mathLog hk
  unfold unitIndex jsDiv
  rw [mathFloor_eq_floor]
  apply (Nat.floor_lt (fl_nonneg _ _)).2
  have hn1 : 1 ≤ K * 2 ^ 50 - 1 := by
    have : 2 ^ 50 ≤ K * 2 ^ 50 := Nat.le_mul_of_pos_left _ hK1
    have : (2 : ℕ) ^ 50 = 1125899906842624 := by norm_num
    omega
  have hn2 : K * 2 ^ 50 - 1 < 2 ^ 53 := by
    have : K * 2 ^ 50 ≤ 7 * 2 ^ 50 := Nat.mul_le_mul_right _ hK
    have : (2 : ℕ) ^ 50 = 1125899906842624 := by norm_num
    have : (2 : ℕ) ^ 53 = 9007199254740992 := by norm_num
    omega
  have hil50 : ilog2 (2 ^ 50) ≤ 1021 := by
    have := ilog2_lt_of_lt_pow (2 ^ 50) 51 (by norm_num) (by norm_num)
    omega
  have e := fl_exact (K * 2 ^ 50 - 1) (2 ^ 50) (K * 2 ^ 50 - 1) 50 (by norm_num) hil50 hn1 hn2 rfl
  have hcast : (((K * 2 ^ 50 - 1 : ℕ) : ℚ) : ℝ) = (K : ℝ) * 2 ^ 50 - 1 := by
    have : 1 ≤ K * 2 ^ 50 := by omega
    rw [Rat.cast_natCast, Nat.cast_sub this]
    push_cast
    ring
  have m := fl_mono ((mathLog bytes).num * (mathLog 1024).den)
    ((mathLog bytes).den * (mathLog 1024).num) (K * 2 ^ 50 - 1) (2 ^ 50) hq (by norm_num) hil
    hil50
    (by
      have hr := quotient_cast mathLog bytes hk hb
      have : ((((mathLog bytes).num * (mathLog 1024).den : ℕ) : ℚ)
              / (((mathLog bytes).den * (mathLog 1024).num : ℕ) : ℚ) : ℝ)
          ≤ (((K * 2 ^ 50 - 1 : ℕ) : ℚ) / (((2 ^ 50 : ℕ) : ℚ)) : ℝ) := by
        rw [hr, div_le_iff₀ (by linarith), hcast]
        refine le_trans h (le_of_eq ?_)
        push_cast
        ring
      exact_mod_cast this)
  rw [e] at m
  refine lt_of_le_of_lt m ?_
  have : (((K * 2 ^ 50 - 1 : ℕ) : ℚ) / 2 ^ 50 : ℝ) < (K : ℝ) := by
    rw [hcast, div_lt_iff₀ (by positivity)]
    linarith
  exact_mod_cast this

/-- Below `1024 ^ K` the unit index is below `K`. -/
theorem unitIndex_lt (mathLog : Nat → Dbl) (bytes K : Nat)
    (hk : LogAccurate mathLog 1024) (hb : LogAccurate mathLog bytes)
    (hK1 : 1 ≤ K) (hK : K ≤ 4) (h1 : 1 ≤ bytes) (hlt : bytes < 1024 ^ K) :
    unitIndex mathLog bytes < K := by
  apply index_lt_of mathLog bytes K hk hb hK1 (by omega)
  have hl := log_below_pow bytes K h1 hlt
  have ha := (logAccurate_bounds mathLog bytes hb).2
  obtain ⟨c1, _, _, _⟩ := logAccurate_1024 mathLog hk
  obtain ⟨l6, l7⟩ := log_1024_bounds
  generalize (((mathLog bytes).toRat : ℚ) : ℝ) = a at *
  generalize (((mathLog 1024).toRat : ℚ) : ℝ) = c at *
  generalize Real.log (bytes : ℝ) = lb at *
  generalize Real.log 1024 = l at *
  interval_cases K <;> norm_num at hl ⊢ <;> linarith

/-- Above `1024 ^ K` the unit index is at least `K`. -/
theorem unitIndex_ge (mathLog : Nat → Dbl) (bytes K : Nat)
    (hk : LogAccurate mathLog 1024) (hb : LogAccurate mathLog bytes)
    (hK : K ≤ 4) (hgt : 1024 ^ K < bytes) :
    K ≤ unitIndex mathLog bytes := by
  apply index_ge_of mathLog bytes K hk hb
    (lt_of_le_of_lt hK (by norm_num))
  have hl := log_above_pow bytes K hgt
  have ha := (logAccurate_bounds mathLog bytes hb).1
  obtain ⟨_, c2, _, _⟩ := logAccurate_1024 mathLog hk
  obtain ⟨l6, l7⟩ := log_1024_bounds
  generalize (((mathLog bytes).toRat : ℚ) : ℝ) = a at *
  generalize (((mathLog 1024).toRat : ℚ) : ℝ) = c at *
  generalize Real.log (bytes : ℝ) = lb at *
  generalize Real.log 1024 = l at *
  interval_cases K <;> norm_num at hl ⊢ <;> linarith

/-- At 1024 the quotient of the logarithms is 1. -/
theorem unitIndex_1024 (mathLog : Nat → Dbl) (hk : LogAccurate mathLog 1024) :
    unitIndex mathLog 1024 = 1 := by
  obtain ⟨hnum, hq, hil⟩ := quotient_ilog2 mathLog 1024 hk hk
  unfold unitIndex jsDiv
  have e := fl_exact ((mathLog 1024).num * (mathLog 1024).den)
    ((mathLog 1024).den * (mathLog 1024).num) 1 0 hq hil (le_refl 1) (by norm_num) (by ring)
  rw [mathFloor_eq_floor, e]
  norm_num

/-- The unit index of a size from 1 on, for an engine whose logarithm is accurate at the size
and at 1024: it is the number of whole powers of 1024 in the size, except that at the exact
sizes `1024 ^ 2`, `1024 ^ 3` and `1024 ^ 4` it is that number or one less. -/
theorem unitIndex_eq (mathLog : Nat → Dbl) (bytes : Nat)
    (hk : LogAccurate mathLog 1024) (hb : LogAccurate mathLog bytes) (h1 : 1 ≤ bytes) :
    (bytes < 1024 → unitIndex mathLog bytes = 0) ∧
    (1024 ≤ bytes → bytes < 1048576 → unitIndex mathLog bytes = 1) ∧
    (bytes = 1048576 → unitIndex mathLog bytes = 1 ∨ unitIndex mathLog bytes = 2) ∧
    (1048576 < bytes → bytes < 1073741824 → unitIndex mathLog bytes = 2) ∧
    (bytes = 1073741824 → unitIndex mathLog bytes = 2 ∨ unitIndex mathLog bytes = 3) ∧
    (1073741824 < bytes → bytes < 1099511627776 → unitIndex mathLog bytes = 3) ∧
    (bytes = 1099511627776 → unitIndex mathLog bytes = 3 ∨ unitIndex mathLog bytes = 4) ∧
    (1099511627776 < bytes → 4 ≤ unitIndex mathLog bytes) := by
  have lt1 := unitIndex_lt mathLog bytes 1 hk hb (by norm_num) (by norm_num) h1
  have lt2 := unitIndex_lt mathLog bytes 2 hk hb (by norm_num) (by norm_num) h1
  have lt3 := unitIndex_lt mathLog bytes 3 hk hb (by norm_num) (by norm_num) h1
  have lt4 := unitIndex_lt mathLog bytes 4 hk hb (by norm_num) (by norm_num) h1
  have ge1 := unitIndex_ge mathLog bytes 1 hk hb (by norm_num)
  have ge2 := unitIndex_ge mathLog bytes 2 hk hb (by norm_num)
  have ge3 := unitIndex_ge mathLog bytes 3 hk hb (by norm_num)
  have ge4 := unitIndex_ge mathLog bytes 4 hk hb (by norm_num)
  have lt5 : bytes = 1099511627776 → unitIndex mathLog bytes < 5 := by
    intro e
    apply index_lt_of mathLog bytes 5 hk hb (by norm_num) (by norm_num)
    have ha := (logAccurate_bounds mathLog bytes hb).2
    obtain ⟨c1, _, _, _⟩ := logAccurate_1024 mathLog hk
    obtain ⟨l6, l7⟩ := log_1024_bounds
    have hl : Real.log (bytes : ℝ) = 4 * Real.log 1024 := by
      rw [e]
      have : ((1099511627776 : ℕ) : ℝ) = 1024 ^ 4 := by norm_num
      rw [this, Real.log_pow]
      norm_num
    rw [hl] at ha
    generalize (((mathLog bytes).toRat : ℚ) : ℝ) = a at *
    generalize (((mathLog 1024).toRat : ℚ) : ℝ) = c at *
    generalize Real.log 1024 = l at *
    norm_num
    linarith
  norm_num at lt1 lt2 lt3 lt4 ge1 ge2 ge3 ge4
  refine ⟨fun h => ?_, fun h h' => ?_, fun h => ?_, fun h h' => ?_, fun h => ?_, fun h h' => ?_,
    fun h => ?_, fun h => ?_⟩
  · have := lt1 h
    omega
  · rcases Nat.eq_or_lt_of_le h with e | g
    · rw [← e]
      exact unitIndex_1024 mathLog hk
    · have := ge1 g
      have := lt2 h'
      omega
  · have := ge1 (by omega)
    have := lt3 (by omega)
    omega
  · have := ge2 h
    have := lt3 h'
    omega
  · have := ge2 (by omega)
    have := lt4 (by omega)
    omega
  · have := ge3 h
    have := lt4 h'
    omega
  · have := ge3 (by omega)
    have := lt5 h
    omega
  · exact ge4 h

end UIModule

/-! ### The sample logarithms -/

/-- A value `n / 2 ^ 50` given for a power of two `2 ^ j` is accurate when it lies between
`j` times the two ends of `log_two_near`, widened by the tolerance. -/
theorem logAccurate_of_near (mathLog : Nat → Dbl) (x j n : Nat) (hx : x = 2 ^ j)
    (hv : mathLog x = ⟨n, 2 ^ 50⟩)
    (h1 : j * 818323753292969962354 * 281474976710655 ≤ n * 2 ^ 68)
    (h2 : n * 2 ^ 68 ≤ j * 818323753292969962098 * 281474976710657) :
    UIModule.LogAccurate mathLog x := by
  refine ⟨by rw [hv]; positivity, by rw [hv]; norm_num, ?_⟩
  have hl : Real.log (x : ℝ) = j * Real.log 2 := by
    rw [hx]
    push_cast
    rw [Real.log_pow]
  have hn := log_two_near
  rw [abs_le] at hn
  have q1 : (j : ℝ) * 818323753292969962354 * 281474976710655 ≤ n * 2 ^ 68 := by
    exact_mod_cast h1
  have q2 : (n : ℝ) * 2 ^ 68 ≤ j * 818323753292969962098 * 281474976710657 := by
    exact_mod_cast h2
  have hj : (0 : ℝ) ≤ j := Nat.cast_nonneg j
  have u1 : (j : ℝ) * Real.log 2 ≤ j * (818323753292969962354 / 2 ^ 70) := by
    apply mul_le_mul_of_nonneg_left _ hj
    linarith [hn.2]
  have u2 : (j : ℝ) * (818323753292969962098 / 2 ^ 70) ≤ j * Real.log 2 := by
    apply mul_le_mul_of_nonneg_left _ hj
    linarith [hn.1]
  rw [UIModule.toRat_cast, hv, hl, abs_le]
  simp only
  generalize (j : ℝ) * Real.log 2 = L at *
  have e : ((n : ℝ)) / ((2 ^ 50 : ℕ) : ℝ) = (n * 2 ^ 68) / 2 ^ 118 := by
    push_cast
    field_simp
    ring
  rw [e]
  constructor
  · rw [le_sub_iff_add_le, le_div_iff₀ (by positivity)]
    linarith
  · rw [sub_le_iff_le_add, div_le_iff₀ (by positivity)]
    linarith

/-- The sample logarithm is accurate at the powers of two among the sample sizes. -/
theorem sampleLog_accurate :
    UIModule.LogAccurate sampleLog 1024 ∧ UIModule.LogAccurate sampleLog 2048 ∧
    UIModule.LogAccurate sampleLog 1048576 ∧ UIModule.LogAccurate sampleLog 1073741824 ∧
    UIModule.LogAccurate sampleLog 1099511627776 ∧
    UIModule.LogAccurate sampleLog 2199023255552 :=
  ⟨logAccurate_of_near sampleLog 1024 10 7804143460206699 (by norm_num) (by decide)
      (by norm_num) (by norm_num),
    logAccurate_of_near sampleLog 2048 11 8584557806227369 (by norm_num) (by decide)
      (by norm_num) (by norm_num),
    logAccurate_of_near sampleLog 1048576 20 15608286920413398 (by norm_num) (by decide)
      (by norm_num) (by norm_num),
    logAccurate_of_near sampleLog 1073741824 30 23412430380620096 (by norm_num) (by decide)
      (by norm_num) (by norm_num),
    logAccurate_of_near sampleLog 1099511627776 40 31216573840826796 (by norm_num) (by decide)
      (by norm_num) (by norm_num),
    logAccurate_of_near sampleLog 2199023255552 41 31996988186847464 (by norm_num) (by decide)
      (by norm_num) (by norm_num)⟩

/-- The skewed logarithm is accurate at 1024 and at `1024 ^ 2`. -/
theorem skewLog_accurate :
    UIModule.LogAccurate skewLog 1024 ∧ UIModule.LogAccurate skewLog 1048576 :=
  ⟨logAccurate_of_near skewLog 1024 10 7804143460206700 (by norm_num) (by decide)
      (by norm_num) (by norm_num),
    logAccurate_of_near skewLog 1048576 20 15608286920413398 (by norm_num) (by decide)
      (by norm_num) (by norm_num)⟩

/-- The skewed logarithm of 1024 is less than one unit in the last place (`2 ^ (-50)` for
the doubles between 4 and 8) away from the logarithm, and its value at `1024 ^ 2` is the
double nearest to the logarithm (within half a unit, `2 ^ (-50)`, for the doubles between 8
and 16). -/
theorem skewLog_one_ulp :
    |(((skewLog 1024).toRat : ℚ) : ℝ) - Real.log 1024| < 1 / 2 ^ 50 ∧
    |(((skewLog 1048576).toRat : ℚ) : ℝ) - Real.log 1048576| < 1 / 2 ^ 50 := by
  have hn := log_two_near
  rw [abs_le] at hn
  have e1 : Real.log 1024 = 10 * Real.log 2 := log_1024
  have e2 : Real.log 1048576 = 20 * Real.log 2 := by
    have : (1048576 : ℝ) = 2 ^ 20 := by norm_num
    rw [this, Real.log_pow]
    norm_num
  have v1 : (((skewLog 1024).toRat : ℚ) : ℝ) = 7804143460206700 / 2 ^ 50 := by
    rw [UIModule.toRat_cast]
    have : skewLog 1024 = ⟨7804143460206700, 2 ^ 50⟩ := by decide
    rw [this]
    norm_num
  have v2 : (((skewLog 1048576).toRat : ℚ) : ℝ) = 15608286920413398 / 2 ^ 50 := by
    rw [UIModule.toRat_cast]
    have : skewLog 1048576 = ⟨15608286920413398, 2 ^ 50⟩ := by decide
    rw [this]
    norm_num
  rw [v1, v2, e1, e2, abs_lt, abs_lt]
  refine ⟨⟨?_, ?_⟩, ⟨?_, ?_⟩⟩ <;> linarith [hn.1, hn.2]

/-! ### The formatted size -/

/-- Rounding to tenths: the integer `floor (10 * b / P + 1/2)` divided by 10 is within one
twentieth of `b / P`. -/
theorem tenths_near (b P : Nat) (hP : 0 < P) :
    |(((2 * (10 * b) + P) / (2 * P) : ℕ) : ℚ) / 10 - (b : ℚ) / P| ≤ 1 / 20 := by
  have h1 : (2 * (10 * b) + P) / (2 * P) * (2 * P) ≤ 2 * (10 * b) + P := Nat.div_mul_le_self _ _
  have h2 : 2 * (10 * b) + P < ((2 * (10 * b) + P) / (2 * P) + 1) * (2 * P) := by
    have := Nat.lt_div_mul_add (a := 2 * (10 * b) + P) (b := 2 * P) (by omega)
    linarith
  generalize (2 * (10 * b) + P) / (2 * P) = n at *
  have hPq : (0 : ℚ) < P := by exact_mod_cast hP
  have q1 : (n : ℚ) * (2 * P) ≤ 2 * (10 * b) + P := by exact_mod_cast h1
  have q2 : (2 : ℚ) * (10 * b) + P < (n + 1) * (2 * P) := by exact_mod_cast h2
  have e : (n : ℚ) / 10 - (b : ℚ) / P = (n * (2 * P) - 2 * (10 * b)) / (20 * P) := by
    field_simp
    ring
  rw [e, abs_le]
  constructor
  · rw [le_div_iff₀ (by positivity)]
    linarith
  · rw [div_le_iff₀ (by positivity)]
    linarith

set_option maxRecDepth 8000 in
/-- The function at sample sizes, with the correctly rounded logarithms of `sampleLog`. -/
theorem formatFileSize_samples :
    [0, 1, 1023, 1024, 1280, 1536, 2048, 1048575, 1048576, 1073741823, 1073741824,
        1099511627775, 1099511627776, 2199023255552].map (UIModule.formatFileSize sampleLog)
      = ["0 B", "1 B", "1023 B", "1 KB", "1.3 KB", "1.5 KB", "2 KB", "1024 KB", "1 MB",
          "1024 MB", "1 GB", "1024 GB", "1 undefined", "2 undefined"] := by
  decide

/-- The statistics panel: when `UIModule.formatFileSize` is the formatter of the environment,
with a logarithm accurate at 1024 and at the total, and the files add up to more than 1 TiB,
the displayed space has no unit. -/
theorem usedSpace_without_unit (env : Env) (mathLog : Nat → Dbl)
    (henv : env.formatFileSize = UIModule.formatFileSize mathLog)
    (files : List FileRecord)
    (hk : UIModule.LogAccurate mathLog 1024)
    (hb : UIModule.LogAccurate mathLog (files.map (fun f => f.size.getD 0)).sum)
    (hsum : (files.map (fun f => f.size.getD 0)).sum < 2 ^ 53)
    (hbig : 1099511627776 < (files.map (fun f => f.size.getD 0)).sum) :
    ∃ number, (AppModule.updateStatistics env files).usedSpace = number ++ " undefined" := by
  have ht := totalSize_eq_sum files hsum
  have h4 := (UIModule.unitIndex_eq mathLog _ hk hb (by omega)).2.2.2.2.2.2.2 hbig
  have hne : (files.map (fun f => f.size.getD 0)).sum ≠ 0 := by omega
  have hnone : UIModule.sizes[UIModule.unitIndex mathLog
      (files.map (fun f => f.size.getD 0)).sum]? = none := by
    apply List.getElem?_eq_none
    simpa [UIModule.sizes] using h4
  refine ⟨UIModule.showTenths (UIModule.tenths (files.map (fun f => f.size.getD 0)).sum
    (UIModule.unitIndex mathLog (files.map (fun f => f.size.getD 0)).sum)), ?_⟩
  simp only [AppModule.updateStatistics, ht, henv, UIModule.formatFileSize, hne, if_false, hnone,
    Option.getD_none, String.append_assoc]
  rfl

set_option maxRecDepth 8000 in
/-- C11, refuted as stated: with a `Math.log` that is within one unit in the last place of
the logarithm at 1024 and correctly rounded at `1024 ^ 2` (`skewLog`), the size
1,048,576 is below `1024 ^ 4`, `floor (log_1024 bytes)` is 2, and the unit index of
`formatFileSize` is 1: the text is `1024 KB`. -/
theorem C11_unit_index_below_at_1048576 :
    UIModule.LogAccurate skewLog 1024 ∧ UIModule.LogAccurate skewLog 1048576 ∧
    |(((skewLog 1024).toRat : ℚ) : ℝ) - Real.log 1024| < 1 / 2 ^ 50 ∧
    |(((skewLog 1048576).toRat : ℚ) : ℝ) - Real.log 1048576| < 1 / 2 ^ 50 ∧
    1048576 < 1024 ^ 4 ∧
    Nat.log 1024 1048576 = 2 ∧
    UIModule.unitIndex skewLog 1048576 = 1 ∧
    UIModule.unitIndex skewLog 1048576 ≠ Nat.log 1024 1048576 ∧
    UIModule.formatFileSize skewLog 1048576 = "1024 KB" := by
  have hlog : Nat.log 1024 1048576 = 2 :=
    Nat.log_eq_of_pow_le_of_lt_pow (by norm_num) (by norm_num)
  have hidx : UIModule.unitIndex skewLog 1048576 = 1 := by decide
  refine ⟨skewLog_accurate.1, skewLog_accurate.2, skewLog_one_ulp.1, skewLog_one_ulp.2,
    by norm_num, hlog, hidx, ?_, by decide⟩
  rw [hidx, hlog]
  decide

/-- C11, amended.  `formatFileSize` returns `0 B` for 0.  Let the engine's `Math.log` be
accurate (`LogAccurate`: relative error at most `2 ^ (-48)`) at 1024 and at the size.
For a size from 1 up to, but not including, `1024 ^ 4` the unit index `i` is
`floor (log_1024 bytes)`, except that at the exact sizes `1024 ^ 2` and `1024 ^ 3` it is
that or one less; it is below 4 and selects a unit of the table B, KB, MB, GB; the number is
`bytes / 1024 ^ i` rounded to one decimal place (tenths
`t = floor (10 * bytes / 1024 ^ i + 1/2)`, within 1/20 of the quotient), between 1 and 1024
inclusive; the text is the decimal of `t / 10` (the fractional digit dropped when it is 0),
a blank and the unit.  For a size above `1024 ^ 4` the unit index is 4 or more, the table has
no entry for it and the text ends in `undefined`.  At `1024 ^ 4` itself the text is
`1024 GB` (index 3) or `1 undefined` (index 4). -/
theorem C11_formatFileSize_units (mathLog : Nat → Dbl) (bytes : Nat) :
    UIModule.formatFileSize mathLog 0 = "0 B" ∧
    (UIModule.LogAccurate mathLog 1024 → UIModule.LogAccurate mathLog bytes →
      1 ≤ bytes → bytes < 1024 ^ 4 →
      ∃ i t unit,
        UIModule.unitIndex mathLog bytes = i ∧
        (i = Nat.log 1024 bytes ∨
          ((bytes = 1024 ^ 2 ∨ bytes = 1024 ^ 3) ∧ i + 1 = Nat.log 1024 bytes)) ∧
        i < 4 ∧
        UIModule.sizes[i]? = some unit ∧
        ["B", "KB", "MB", "GB"][i]? = some unit ∧
        UIModule.tenths bytes i = t ∧
        t = (2 * (10 * bytes) + 1024 ^ i) / (2 * 1024 ^ i) ∧
        |(t : ℚ) / 10 - (bytes : ℚ) / (1024 : ℚ) ^ i| ≤ 1 / 20 ∧
        10 ≤ t ∧ t ≤ 10240 ∧
        UIModule.formatFileSize mathLog bytes
          = toString (t / 10) ++ (if t % 10 = 0 then "" else "." ++ toString (t % 10))
            ++ " " ++ unit) ∧
    (UIModule.LogAccurate mathLog 1024 → UIModule.LogAccurate mathLog bytes →
      1024 ^ 4 < bytes →
      4 ≤ UIModule.unitIndex mathLog bytes ∧
      UIModule.sizes[UIModule.unitIndex mathLog bytes]? = none ∧
      ∃ number, UIModule.formatFileSize mathLog bytes = number ++ " undefined") ∧
    (UIModule.LogAccurate mathLog 1024 → UIModule.LogAccurate mathLog bytes →
      bytes = 1024 ^ 4 →
      (UIModule.unitIndex mathLog bytes = 3 ∧ UIModule.formatFileSize mathLog bytes = "1024 GB")
      ∨ (UIModule.unitIndex mathLog bytes = 4
          ∧ UIModule.formatFileSize mathLog bytes = "1 undefined")) := by
  refine ⟨by simp [UIModule.formatFileSize], ?_, ?_, ?_⟩
  · intro hk hb h1 hlt
    have hlt' : bytes < 1099511627776 := by norm_num at hlt; exact hlt
    have hne : bytes ≠ 0 := by omega
    obtain ⟨k0, k1, k2e, k2, k3e, k3, _, _⟩ := UIModule.unitIndex_eq mathLog bytes hk hb h1
    -- the index and the two powers of 1024 around the size
    obtain ⟨i, hi, hidx, hlow, hhigh, hlog⟩ : ∃ i, i ≤ 3 ∧ UIModule.unitIndex mathLog bytes = i ∧
        1024 ^ i ≤ bytes ∧ bytes ≤ 1024 ^ (i + 1) ∧
        (i = Nat.log 1024 bytes ∨
          ((bytes = 1024 ^ 2 ∨ bytes = 1024 ^ 3) ∧ i + 1 = Nat.log 1024 bytes)) := by
      rcases Nat.lt_or_ge bytes 1024 with c0 | c0
      · exact ⟨0, by norm_num, k0 c0, by norm_num; omega, by norm_num; omega,
          Or.inl (Nat.log_eq_of_pow_le_of_lt_pow (by norm_num; omega) (by norm_num; omega)).symm⟩
      rcases Nat.lt_or_ge bytes 1048576 with c1 | c1
      · exact ⟨1, by norm_num, k1 c0 c1, by norm_num; omega, by norm_num; omega,
          Or.inl (Nat.log_eq_of_pow_le_of_lt_pow (by norm_num; omega) (by norm_num; omega)).symm⟩
      rcases Nat.eq_or_lt_of_le c1 with e1 | c1'
      · have hl : Nat.log 1024 bytes = 2 :=
          Nat.log_eq_of_pow_le_of_lt_pow (by norm_num; omega) (by norm_num; omega)
        rcases k2e e1.symm with g | g
        · exact ⟨1, by norm_num, g, by norm_num; omega, by norm_num; omega,
            Or.inr ⟨Or.inl (by norm_num; omega), by omega⟩⟩
        · exact ⟨2, by norm_num, g, by norm_num; omega, by norm_num; omega, Or.inl hl.symm⟩
      rcases Nat.lt_or_ge bytes 1073741824 with c2 | c2
      · exact ⟨2, by norm_num, k2 c1' c2, by norm_num; omega, by norm_num; omega,
          Or.inl (Nat.log_eq_of_pow_le_of_lt_pow (by norm_num; omega) (by norm_num; omega)).symm⟩
      rcases Nat.eq_or_lt_of_le c2 with e2 | c2'
      · have hl : Nat.log 1024 bytes = 3 :=
          Nat.log_eq_of_pow_le_of_lt_pow (by norm_num; omega) (by norm_num; omega)
        rcases k3e e2.symm with g | g
        · exact ⟨2, by norm_num, g, by norm_num; omega, by norm_num; omega,
            Or.inr ⟨Or.inr (by norm_num; omega), by omega⟩⟩
        · exact ⟨3, by norm_num, g, by norm_num; omega, by norm_num; omega, Or.inl hl.symm⟩
      · exact ⟨3, by norm_num, k3 c2' hlt', by norm_num; omega, by norm_num; omega,
          Or.inl (Nat.log_eq_of_pow_le_of_lt_pow (by norm_num; omega) (by norm_num; omega)).symm⟩
    have hten := UIModule.tenths_eq bytes i h1 (by omega) (by omega)
    have hP : 0 < 1024 ^ i := by positivity
    have hnear := tenths_near bytes (1024 ^ i) hP
    rw [← hten] at hnear
    -- bounds of the tenths
    have hge : 10 ≤ UIModule.tenths bytes i := by
      rw [hten, Nat.le_div_iff_mul_le (by positivity)]
      nlinarith
    have hle : UIModule.tenths bytes i ≤ 10240 := by
      rw [hten]
      apply Nat.le_of_lt_succ
      rw [Nat.div_lt_iff_lt_mul (by positivity)]
      rw [pow_succ] at hhigh
      nlinarith
    have hu : ∃ unit, UIModule.sizes[i]? = some unit ∧ ["B", "KB", "MB", "GB"][i]? = some unit := by
      interval_cases i <;> simp [UIModule.sizes]
    obtain ⟨unit, hu1, hu2⟩ := hu
    refine ⟨i, UIModule.tenths bytes i, unit, hidx, hlog, by omega, hu1, hu2, rfl, hten, ?_, hge,
      hle, ?_⟩
    · push_cast at hnear
      exact hnear
    · simp only [UIModule.formatFileSize, hne, if_false, hidx, hu1, Option.getD_some,
        UIModule.showTenths]
  · intro hk hb hgt
    have hgt' : 1099511627776 < bytes := by norm_num at hgt; exact hgt
    have hne : bytes ≠ 0 := by omega
    have h4 := (UIModule.unitIndex_eq mathLog bytes hk hb (by omega)).2.2.2.2.2.2.2 hgt'
    have hnone : UIModule.sizes[UIModule.unitIndex mathLog bytes]? = none := by
      apply List.getElem?_eq_none
      simpa [UIModule.sizes] using h4
    refine ⟨h4, hnone,
      UIModule.showTenths (UIModule.tenths bytes (UIModule.unitIndex mathLog bytes)), ?_⟩
    simp only [UIModule.formatFileSize, hne, if_false, hnone, Option.getD_none,
      String.append_assoc]
    rfl
  · intro hk hb he
    have he' : bytes = 1099511627776 := by norm_num at he; exact he
    have h34 := (UIModule.unitIndex_eq mathLog bytes hk hb (by omega)).2.2.2.2.2.2.1 he'
    have t3 : UIModule.tenths 1099511627776 3 = 10240 := by
      rw [UIModule.tenths_eq _ _ (by norm_num) (by norm_num) (by norm_num)]
      norm_num
    have t4 : UIModule.tenths 1099511627776 4 = 10 := by
      rw [UIModule.tenths_eq _ _ (by norm_num) (by norm_num) (by norm_num)]
      norm_num
    subst he'
    rcases h34 with g | g
    · refine Or.inl ⟨g, ?_⟩
      simp only [UIModule.formatFileSize, g, t3]
      decide
    · refine Or.inr ⟨g, ?_⟩
      simp only [UIModule.formatFileSize, g, t4]
      decide

/-- C11 amended, with the logarithm `sampleLog`: the sizes 2048 (`2 KB`), `2 * 1024 ^ 4`
(no unit) and `1024 ^ 4`. -/
theorem C11_formatFileSize_units_witness :
    UIModule.formatFileSize sampleLog 0 = "0 B" ∧
    (UIModule.LogAccurate sampleLog 1024 ∧ UIModule.LogAccurate sampleLog 2048 ∧
      ∃ i t unit,
        UIModule.unitIndex sampleLog 2048 = i ∧
        (i = Nat.log 1024 2048 ∨
          ((2048 = 1024 ^ 2 ∨ 2048 = 1024 ^ 3) ∧ i + 1 = Nat.log 1024 2048)) ∧
        i < 4 ∧
        UIModule.sizes[i]? = some unit ∧
        ["B", "KB", "MB", "GB"][i]? = some unit ∧
        UIModule.tenths 2048 i = t ∧
        t = (2 * (10 * 2048) + 1024 ^ i) / (2 * 1024 ^ i) ∧
        |(t : ℚ) / 10 - ((2048 : ℕ) : ℚ) / (1024 : ℚ) ^ i| ≤ 1 / 20 ∧
        10 ≤ t ∧ t ≤ 10240 ∧
        UIModule.formatFileSize sampleLog 2048
          = toString (t / 10) ++ (if t % 10 = 0 then "" else "." ++ toString (t % 10))
            ++ " " ++ unit) ∧
    (UIModule.LogAccurate sampleLog 2199023255552 ∧
      4 ≤ UIModule.unitIndex sampleLog 2199023255552 ∧
      UIModule.sizes[UIModule.unitIndex sampleLog 2199023255552]? = none ∧
      ∃ number, UIModule.formatFileSize sampleLog 2199023255552 = number ++ " undefined") ∧
    (UIModule.LogAccurate sampleLog 1099511627776 ∧
      ((UIModule.unitIndex sampleLog 1099511627776 = 3
          ∧ UIModule.formatFileSize sampleLog 1099511627776 = "1024 GB")
        ∨ (UIModule.unitIndex sampleLog 1099511627776 = 4
          ∧ UIModule.formatFileSize sampleLog 1099511627776 = "1 undefined"))) :=
  ⟨(C11_formatFileSize_units sampleLog 0).1,
    ⟨sampleLog_accurate.1, sampleLog_accurate.2.1,
      (C11_formatFileSize_units sampleLog 2048).2.1 sampleLog_accurate.1
        sampleLog_accurate.2.1 (by norm_num) (by norm_num)⟩,
    ⟨sampleLog_accurate.2.2.2.2.2,
      (C11_formatFileSize_units sampleLog 2199023255552).2.2.1 sampleLog_accurate.1
        sampleLog_accurate.2.2.2.2.2 (by norm_num)⟩,
    ⟨sampleLog_accurate.2.2.2.2.1,
      (C11_formatFileSize_units sampleLog 1099511627776).2.2.2 sampleLog_accurate.1
        sampleLog_accurate.2.2.2.2.1 (by norm_num)⟩⟩

end StudentHub
